import Mathlib

/-!
Medium stack, medium transport model and scene geometry.

A shallow embedding of `src/src/medium.cpp` and `src/src/objects.h`.

* The medium stack (`MediumStack`): the array `medium_array` of `Medium*` is a list of
  slots (`none` is `nullptr`), `stack_size` is the occupancy count.  The only field of a
  `Medium` object that the stack reads or writes is `id`, so the objects the pointers refer
  to are represented by an identity store `IdStore` giving the `id` field at each address.
  The capacity `MAX_STACK_SIZE` is declared in a header that is not part of the sources and
  is a parameter of `add_medium`; the array has `MAX_STACK_SIZE` slots, which the theorems
  that need it assume as `medium_array.length = MAX_STACK_SIZE`.
* `stack_size` is an `int` that the constructors set to 0 and that `pop_medium` decrements
  only after a match at an index below it: it is never negative and is a natural number
  here.  Identities are `int`s that are only stored and compared; they are integers here.
* `add_medium` and `pop_medium` return an `Outcome` together with the state they leave
  behind, so that what a failing call has done to the state can be stated.  Dereferencing
  `nullptr` and indexing outside the array have no defined behaviour in C++; the embedding
  stops there and reports `null_dereference` / `out_of_bounds`.
* `double` is idealised as an ordered field `K` (the theorems about `exp` and `sqrt` are
  stated for the real numbers); `vec3` is a triple of scalars.
* The virtual methods of `Object` are dispatched over the closed set of classes that
  `objects.h` defines: the base class, whose placeholders throw, and the four shapes.
-/

namespace Raytracing

/-! ## Medium stack -/

/-- Address of a `Medium` object. -/
abbrev Ptr := Nat

/-- The `id` field of the `Medium` object at each address. -/
abbrev IdStore := Ptr → Int

/-- How a call ends: normal return, the `std::invalid_argument` thrown by `add_medium`, or
one of the two faults of the embedding. -/
inductive Outcome where
  | ok
  | invalid_argument
  | null_dereference
  | out_of_bounds
  deriving DecidableEq, Repr

/-- The data members of `MediumStack`. -/
structure MediumStack where
  medium_array : List (Option Ptr)
  stack_size : Nat
  deriving DecidableEq, Repr

/-- Result of the identity scans of `add_medium` and `pop_medium`. -/
inductive Scan where
  | found (i : Nat)
  | not_found
  | fault (o : Outcome)
  deriving DecidableEq, Repr

/-- The constructor `MediumStack::MediumStack()`: only `stack_size` is initialised, the slots
hold whatever the array was allocated with. -/
def MediumStack.empty (medium_array : List (Option Ptr)) : MediumStack :=
  { medium_array := medium_array, stack_size := 0 }

/-- Embeds `MediumStack::get_medium`: `nullptr` on an empty stack, else the slot below the
occupancy count. -/
def get_medium (s : MediumStack) : Except Outcome (Option Ptr) :=
  if s.stack_size = 0 then .ok none
  else
    match s.medium_array[s.stack_size - 1]? with
    | none => .error .out_of_bounds
    | some slot => .ok slot

/-- The loop `for (int i = 0; i < stack_size; i++)` of `add_medium`, entered at index `i` with
`n` iterations left: `found i` is the early `return` at slot `i`. -/
def add_scan (medium_array : List (Option Ptr)) (ids : IdStore) (id : Int) : Nat → Nat → Scan
  | _, 0 => .not_found
  | i, n + 1 =>
    match medium_array[i]? with
    | none => .fault .out_of_bounds
    | some none => .fault .null_dereference
    | some (some p) => if ids p = id then .found i else add_scan medium_array ids id (i + 1) n

/-- Embeds `MediumStack::add_medium`: the capacity check, the scan for a resident carrying
`id`, then the assignment of `id` to the medium and the push. -/
def add_medium (MAX_STACK_SIZE : Nat) (s : MediumStack) (ids : IdStore) (medium : Option Ptr)
    (id : Int) : Outcome × MediumStack × IdStore :=
  if s.stack_size = MAX_STACK_SIZE then (.invalid_argument, s, ids)
  else
    match add_scan s.medium_array ids id 0 s.stack_size with
    | .found _ => (.ok, s, ids)
    | .fault o => (o, s, ids)
    | .not_found =>
      match medium with
      | none => (.null_dereference, s, ids)
      | some p =>
        let ids1 := Function.update ids p id
        if s.stack_size < s.medium_array.length then
          (.ok, { medium_array := s.medium_array.set s.stack_size (some p),
                  stack_size := s.stack_size + 1 }, ids1)
        else (.out_of_bounds, s, ids1)

/-- The loop `for (int i = stack_size-1; i >= 0; i--)` of `pop_medium`, with `k = i + 1`. -/
def pop_scan (medium_array : List (Option Ptr)) (ids : IdStore) (id : Int) : Nat → Scan
  | 0 => .not_found
  | i + 1 =>
    match medium_array[i]? with
    | none => .fault .out_of_bounds
    | some none => .fault .null_dereference
    | some (some p) => if ids p = id then .found i else pop_scan medium_array ids id i

/-- Embeds `MediumStack::pop_medium`: the first match of the downward scan is cleared and the
occupancy count decremented; without a match nothing is done. -/
def pop_medium (s : MediumStack) (ids : IdStore) (id : Int) : Outcome × MediumStack × IdStore :=
  match pop_scan s.medium_array ids id s.stack_size with
  | .found i =>
    (.ok, { medium_array := s.medium_array.set i none, stack_size := s.stack_size - 1 }, ids)
  | .fault o => (o, s, ids)
  | .not_found => (.ok, s, ids)

/-- Slots `0 .. stack_size-1` all hold a medium. -/
def occupied_nonempty (s : MediumStack) : Prop :=
  ∀ i, i < s.stack_size → ∃ p, s.medium_array[i]? = some (some p)

/-- No medium in slots `0 .. stack_size-1` carries identity `id`. -/
def id_absent (s : MediumStack) (ids : IdStore) (id : Int) : Prop :=
  ∀ i p, i < s.stack_size → s.medium_array[i]? = some (some p) → ids p ≠ id

/-- The medium in slot `i` carries identity `id`. -/
def carries (s : MediumStack) (ids : IdStore) (i : Nat) (id : Int) : Prop :=
  ∃ p, s.medium_array[i]? = some (some p) ∧ ids p = id

/-- No two of the occupied slots hold media with the same identity. -/
def distinct_ids (s : MediumStack) (ids : IdStore) : Prop :=
  ∀ i j p q, i < s.stack_size → j < s.stack_size →
    s.medium_array[i]? = some (some p) → s.medium_array[j]? = some (some q) →
    ids p = ids q → i = j

/-- A call on the stack: `enter medium id` is `add_medium(medium, id)` with a non-null
`medium`, `exit id` is `pop_medium(id)`. -/
inductive Op where
  | enter (medium : Ptr) (id : Int)
  | exit (id : Int)
  deriving DecidableEq, Repr

/-- One call. -/
def step (MAX_STACK_SIZE : Nat) (s : MediumStack) (ids : IdStore) :
    Op → Outcome × MediumStack × IdStore
  | .enter medium id => add_medium MAX_STACK_SIZE s ids (some medium) id
  | .exit id => pop_medium s ids id

/-- A sequence of calls; it ends at the first call that does not return normally. -/
def run (MAX_STACK_SIZE : Nat) (s : MediumStack) (ids : IdStore) :
    List Op → Outcome × MediumStack × IdStore
  | [] => (.ok, s, ids)
  | op :: ops =>
    match step MAX_STACK_SIZE s ids op with
    | (.ok, s1, ids1) => run MAX_STACK_SIZE s1 ids1 ops
    | r => r

/-- Removes the most recently entered medium that was entered under `id` from a list of
(medium, identity) pairs kept most recent first. -/
def erase_id (id : Int) : List (Ptr × Int) → List (Ptr × Int)
  | [] => []
  | e :: r => if e.2 = id then r else e :: erase_id id r

/-- The media entered and not yet exited, most recent first, with the identity each was
entered under: the reading of a call sequence that the specification of the stack uses.
It starts from the residents `r`. -/
def resident_after : List (Ptr × Int) → List Op → List (Ptr × Int)
  | r, [] => r
  | r, .enter medium id :: ops => resident_after ((medium, id) :: r) ops
  | r, .exit id :: ops => resident_after (erase_id id r) ops

/-- Proper nesting of a call sequence started with residents `r`: an `enter` uses a medium
that is not resident and an identity that no resident was entered under and finds the
occupancy below the capacity; an `exit` names the identity of the most recent resident. -/
def nested (MAX_STACK_SIZE : Nat) : List (Ptr × Int) → List Op → Bool
  | _, [] => true
  | r, .enter medium id :: ops =>
    decide (medium ∉ r.map Prod.fst) && decide (id ∉ r.map Prod.snd) &&
      decide (r.length < MAX_STACK_SIZE) && nested MAX_STACK_SIZE ((medium, id) :: r) ops
  | r, .exit id :: ops =>
    decide (r.head?.map Prod.snd = some id) && nested MAX_STACK_SIZE (erase_id id r) ops

/-- The stack holds exactly the residents `r` (most recent first): slot `i` of the occupied
part is the `i`-th medium entered, each resident carries the identity it was entered under,
and neither a medium nor an identity occurs twice. -/
def represents (r : List (Ptr × Int)) (s : MediumStack) (ids : IdStore) : Prop :=
  s.stack_size = r.length ∧ s.stack_size ≤ s.medium_array.length ∧
  s.medium_array.take s.stack_size = r.reverse.map (fun e => some e.1) ∧
  (∀ e ∈ r, ids e.1 = e.2) ∧ (r.map Prod.snd).Nodup ∧ (r.map Prod.fst).Nodup

/-- Media at addresses 10, 11, 12 entered as identities 1, 2, 3 on an empty stack of the
given capacity. -/
def three_entered (MAX_STACK_SIZE : Nat) : Outcome × MediumStack × IdStore :=
  run MAX_STACK_SIZE (MediumStack.empty (List.replicate MAX_STACK_SIZE none)) (fun _ => 0)
    [.enter 10 1, .enter 11 2, .enter 12 3]

/-- Capacity 4, media at addresses 10, 11, 12 entered as identities 1, 2, 3, then identity 1
exited: slot 0 is cleared and two media are counted. -/
def bottom_exited : Outcome × MediumStack × IdStore :=
  run 4 (MediumStack.empty (List.replicate 4 none)) (fun _ => 0)
    [.enter 10 1, .enter 11 2, .enter 12 3, .exit 1]

/-! ## Vectors, rays and hits

`vec3.h` and the header declaring `Ray` and `Hit` are not part of the sources; what follows
is what `medium.cpp` and `objects.h` use of them. -/

/-- Modelled from the spec: `vec3` (declared in `vec3.h`), a value type of three real
components used for positions, directions and per-channel quantities. -/
structure vec3 (K : Type) where
  x : K
  y : K
  z : K
  deriving DecidableEq, Repr

section Scalars

variable {K : Type} [LinearOrderedField K]

/-- Modelled from the spec: `vec3::operator[]` (declared in `vec3.h`), component `i`. -/
def vec3.get (v : vec3 K) : Fin 3 → K
  | 0 => v.x
  | 1 => v.y
  | 2 => v.z

/-- Modelled from the spec: the conversion of a scalar to a `vec3` (declared in `vec3.h`)
that `Medium(0, a)` and `weight = 1` rely on: every component is the scalar. -/
def vec3.broadcast (k : K) : vec3 K := ⟨k, k, k⟩

/-- Modelled from the spec: `vec3 + vec3` (declared in `vec3.h`), per component. -/
instance : Add (vec3 K) := ⟨fun a b => ⟨a.x + b.x, a.y + b.y, a.z + b.z⟩⟩

/-- Modelled from the spec: `vec3 - vec3` (declared in `vec3.h`), per component. -/
instance : Sub (vec3 K) := ⟨fun a b => ⟨a.x - b.x, a.y - b.y, a.z - b.z⟩⟩

/-- Modelled from the spec: unary `-vec3` (declared in `vec3.h`), per component. -/
instance : Neg (vec3 K) := ⟨fun a => ⟨-a.x, -a.y, -a.z⟩⟩

/-- Modelled from the spec: `vec3 * vec3` (declared in `vec3.h`), the per-channel product. -/
instance : Mul (vec3 K) := ⟨fun a b => ⟨a.x * b.x, a.y * b.y, a.z * b.z⟩⟩

/-- Modelled from the spec: `vec3 * double` (declared in `vec3.h`). -/
instance : HMul (vec3 K) K (vec3 K) := ⟨fun a k => ⟨a.x * k, a.y * k, a.z * k⟩⟩

/-- Modelled from the spec: `vec3 / double` (declared in `vec3.h`). -/
instance : HDiv (vec3 K) K (vec3 K) := ⟨fun a k => ⟨a.x / k, a.y / k, a.z / k⟩⟩

/-- Modelled from the spec: `exp_vector` (declared in `vec3.h`), the element-wise
exponential; `exp` is the scalar exponential `std::exp`. -/
def exp_vector (exp : K → K) (v : vec3 K) : vec3 K := ⟨exp v.x, exp v.y, exp v.z⟩

/-- Modelled from the spec: `vec3::length_squared` (declared in `vec3.h`). -/
def vec3.length_squared (v : vec3 K) : K := v.x * v.x + v.y * v.y + v.z * v.z

/-- Modelled from the spec: `vec3::length` (declared in `vec3.h`); `sqrt` is `std::sqrt`. -/
def vec3.length (sqrt : K → K) (v : vec3 K) : K := sqrt v.length_squared

/-- Every component is non-negative. -/
def vec3.nonneg (v : vec3 K) : Prop := 0 ≤ v.x ∧ 0 ≤ v.y ∧ 0 ≤ v.z

/-- Modelled from the spec: `Ray` (declared in a header that is not part of the sources),
an origin and a direction. -/
structure Ray (K : Type) where
  starting_position : vec3 K
  direction_vector : vec3 K
  deriving DecidableEq, Repr

/-- Modelled from the spec: `Hit` (declared in a header that is not part of the sources),
with the fields that `findClosestHit` in `objects.h` fills; `medium.cpp` spells
`intersectionPoint` as `intersection_point`. -/
structure Hit (K : Type) where
  distance : K
  intersectionPoint : vec3 K
  normalVector : vec3 K
  incomingVector : vec3 K
  intersectedObjectIndex : Int
  objectID : Int
  deriving DecidableEq, Repr

/-! ## Media -/

/-- The coefficient members of `Medium`; the member `id` lives in the `IdStore`. The derived
classes `BeersLawMedium` and `ScatteringMediumHomogenous` add no member that `medium.cpp`
uses. -/
structure Medium (K : Type) where
  scattering_albedo : vec3 K
  absorption_albedo : vec3 K
  extinction_albedo : vec3 K
  deriving DecidableEq, Repr

/-- The constructor `Medium::Medium`. -/
def Medium.construct (_scattering_albedo _absorption_albedo : vec3 K) : Medium K :=
  { scattering_albedo := _scattering_albedo
    absorption_albedo := _absorption_albedo
    extinction_albedo := _absorption_albedo + _scattering_albedo }

/-- Embeds `Medium::transmittance_albedo`. -/
def Medium.transmittance_albedo (exp : K → K) (self : Medium K) (distance : K) : vec3 K :=
  exp_vector exp (-self.extinction_albedo * distance)

/-- The constructor `BeersLawMedium::BeersLawMedium`. -/
def BeersLawMedium.construct (_scattering_albedo _absorption_albedo : vec3 K) :
    Medium K :=
  Medium.construct (vec3.broadcast 0) _absorption_albedo

/-- The reference parameters of `Integrate`: the values they hold on entry and on return. -/
structure IntegrateArgs (K : Type) where
  incoming_ray : Ray K
  Lv : vec3 K
  transmittance : vec3 K
  weight : vec3 K
  outgoing_ray : Ray K
  deriving DecidableEq, Repr

/-- Embeds `BeersLawMedium::Integrate`. The scene query `find_closest_hit` of this version of
the sources is declared in a header that is not part of them and is a parameter: it returns
`some hit` when it reports a hit and has filled `hit`, and it does not change the ray (the
query in `objects.h` takes it by `const` reference). -/
def BeersLawMedium.Integrate {Obj : Type} (exp sqrt : K → K)
    (find_closest_hit : Ray K → List Obj → Int → Option (Hit K))
    (self : Medium K) (objects : List Obj) (number_of_objects : Int)
    (args : IntegrateArgs K) : IntegrateArgs K :=
  match find_closest_hit args.incoming_ray objects number_of_objects with
  | none => args
  | some hit =>
    { args with
      transmittance := self.transmittance_albedo exp
        ((hit.intersectionPoint - args.incoming_ray.starting_position).length sqrt)
      weight := vec3.broadcast 1
      outgoing_ray := args.incoming_ray }

/-- Embeds `BeersLawMedium::sample`; the object list is not used. -/
def BeersLawMedium.sample (exp : K → K) (self : Medium K) (distance : K) (_scatter : Bool) :
    vec3 K :=
  self.transmittance_albedo exp distance

/-- Embeds `ScatteringMediumHomogenous::sample`; the object list is not used. `Fin.foldl 3` is
the loop `for (int i = 0; i < 3; i++) pdf += density[i]`. -/
def ScatteringMediumHomogenous.sample (exp : K → K) (self : Medium K) (distance : K)
    (scatter : Bool) : vec3 K :=
  let tr := self.transmittance_albedo exp distance
  let density := if scatter then self.extinction_albedo * tr else tr
  let pdf := Fin.foldl 3 (fun pdf i => pdf + density.get i) 0
  let pdf := pdf * (1 / 3)
  if scatter then tr * self.scattering_albedo / pdf else tr / pdf

/-! ## Geometry (`objects.h`)

The members `material` and `area` of `Object` are not read by the functions embedded here
and are left out.  `objects.h` spells the members of `Ray` as `startingPosition` and
`directionVector`.  A `Hit` that is declared and not assigned holds whatever its memory
held; that content is the parameter `uninit` of the functions that declare one.  The
constant `constants::EPSILON` (declared in `constants.h`, which is not part of the sources)
is the parameter `EPSILON`. -/

/-- Modelled from the spec: `dotVectors` (declared in `vec3.h`), the dot product. -/
def dotVectors (a b : vec3 K) : K := a.x * b.x + a.y * b.y + a.z * b.z

/-- Modelled from the spec: `crossVectors` (declared in `vec3.h`), the cross product. -/
def crossVectors (a b : vec3 K) : vec3 K :=
  ⟨a.y * b.z - a.z * b.y, a.z * b.x - a.x * b.z, a.x * b.y - a.y * b.x⟩

/-- Modelled from the spec: `normalizeVector` (declared in `vec3.h`), the vector divided
by its length. -/
def normalizeVector (sqrt : K → K) (v : vec3 K) : vec3 K := v / v.length sqrt

/-- Modelled from the spec: `solveQuadratic` (declared in `utils.h`, which is not part of
the sources). The spec says of the sphere that it "solves the quadratic ray-sphere equation
and reports the smaller positive root (no hit if none exists)": the result is the smaller
positive root of `t^2 + b*t + c = 0`, and the no-hit distance -1 if there is none. -/
def solveQuadratic (sqrt : K → K) (b c : K) : K :=
  let discriminant := b * b - 4 * c
  if discriminant < 0 then -1
  else
    let root := sqrt discriminant
    if 0 < (-b - root) / 2 then (-b - root) / 2
    else if 0 < (-b + root) / 2 then (-b + root) / 2
    else -1

/-- What a call on an object list can raise: the exception thrown by the placeholder
methods of the base class `Object`, or (a fault of the embedding) an index outside the
list. -/
inductive ObjectError where
  | VirtualMethodNotAllowedException
  | out_of_bounds
  deriving DecidableEq, Repr

/-- The data members of `Sphere`. -/
structure Sphere (K : Type) where
  position : vec3 K
  radius : K
  radiusSquared : K
  deriving DecidableEq, Repr

/-- The constructor `Sphere::Sphere`. -/
def Sphere.construct (_position : vec3 K) (_radius : K) : Sphere K :=
  { position := _position, radius := _radius, radiusSquared := _radius * _radius }

/-- Embeds `Sphere::findClosestHit`. -/
def Sphere.findClosestHit (sqrt : K → K) (self : Sphere K) (ray : Ray K) (uninit : Hit K) :
    Hit K :=
  let dotProduct := dotVectors ray.direction_vector ray.starting_position
  let b := 2 * (dotProduct - dotVectors ray.direction_vector self.position)
  let difference_in_positions := self.position - ray.starting_position
  let c := difference_in_positions.length_squared - self.radiusSquared
  let distance := solveQuadratic sqrt b c
  { uninit with objectID := 0, distance := distance }

/-- Embeds `Sphere::getNormalVector`. -/
def Sphere.getNormalVector (sqrt : K → K) (self : Sphere K) (intersectionPoint : vec3 K) :
    vec3 K :=
  let differenceVector := intersectionPoint - self.position
  normalizeVector sqrt differenceVector

/-- The data members of `Plane` that are assigned (`transparentBack` is not). -/
structure Plane (K : Type) where
  position : vec3 K
  v1 : vec3 K
  v2 : vec3 K
  normalVector : vec3 K
  deriving DecidableEq, Repr

/-- The constructor `Plane::Plane`. -/
def Plane.construct (sqrt : K → K) (_position _v1 _v2 : vec3 K) : Plane K :=
  let v1 := normalizeVector sqrt _v1
  let v2 := normalizeVector sqrt _v2
  let _normalVector := crossVectors v1 v2
  { position := _position, v1 := v1, v2 := v2, normalVector := normalizeVector sqrt _normalVector }

/-- Embeds `Plane::computeDistanceInCenteredSystem`. -/
def Plane.computeDistanceInCenteredSystem (EPSILON : K) (self : Plane K)
    (startingPoint directionVector : vec3 K) : K :=
  let directionDotNormal := -dotVectors directionVector self.normalVector
  if |directionDotNormal| < EPSILON then -1
  else
    let distancesToStart := dotVectors startingPoint self.normalVector
    distancesToStart / directionDotNormal

/-- Embeds `Plane::findClosestHit`. -/
def Plane.findClosestHit (EPSILON : K) (self : Plane K) (ray : Ray K) (uninit : Hit K) :
    Hit K :=
  let shiftedPoint := ray.starting_position - self.position
  let distance := self.computeDistanceInCenteredSystem EPSILON shiftedPoint ray.direction_vector
  { uninit with objectID := 0, distance := distance }

/-- Embeds `Plane::getNormalVector`. -/
def Plane.getNormalVector (self : Plane K) (_intersectionPoint : vec3 K) : vec3 K :=
  self.normalVector

/-- The data members of `Rectangle`, a `Plane` with two side lengths. -/
structure Rectangle (K : Type) extends Plane K where
  L1 : K
  L2 : K
  deriving DecidableEq, Repr

/-- The constructor `Rectangle::Rectangle`. -/
def Rectangle.construct (sqrt : K → K) (_position _v1 _v2 : vec3 K) (_L1 _L2 : K) :
    Rectangle K :=
  { Plane.construct sqrt _position _v1 _v2 with L1 := _L1, L2 := _L2 }

/-- Embeds `Rectangle::findClosestHit`. -/
def Rectangle.findClosestHit (EPSILON : K) (self : Rectangle K) (ray : Ray K)
    (uninit : Hit K) : Hit K :=
  let hit : Hit K := { uninit with objectID := 0, distance := -1 }
  let shiftedPoint := ray.starting_position - self.position
  let distance :=
    self.toPlane.computeDistanceInCenteredSystem EPSILON shiftedPoint ray.direction_vector
  if distance < 0 then hit
  else
    let directionDotV1 := dotVectors ray.direction_vector self.v1
    let directionDotV2 := dotVectors ray.direction_vector self.v2
    let startDotV1 := dotVectors shiftedPoint self.v1
    let startDotV2 := dotVectors shiftedPoint self.v2
    if |startDotV1 + directionDotV1 * distance| > self.L1 / 2 + EPSILON ∨
        |startDotV2 + directionDotV2 * distance| > self.L2 / 2 + EPSILON then hit
    else { hit with distance := distance }

/-- The data members of `Triangle`. -/
structure Triangle (K : Type) where
  position : vec3 K
  normalVector : vec3 K
  p1 : vec3 K
  p2 : vec3 K
  p3 : vec3 K
  v1 : vec3 K
  v2 : vec3 K
  x1 : K
  y1 : K
  x2 : K
  y2 : K
  x3 : K
  y3 : K
  detT : K
  uv1 : vec3 K
  uv2 : vec3 K
  uv3 : vec3 K
  deriving DecidableEq, Repr

/-- The constructor `Triangle::Triangle`. -/
def Triangle.construct (sqrt : K → K) (_p1 _p2 _p3 : vec3 K) : Triangle K :=
  let p1 := _p1
  let p2 := _p2
  let p3 := _p3
  let position := p1
  let v1 := normalizeVector sqrt (p2 - p1)
  let v2 := normalizeVector sqrt (p3 - p1)
  let normalVector := normalizeVector sqrt (crossVectors v1 v2)
  let v2 := normalizeVector sqrt (crossVectors normalVector v1)
  let x1 := dotVectors p1 v1
  let y1 := dotVectors p1 v2
  let x2 := dotVectors p2 v1
  let y2 := dotVectors p2 v2
  let x3 := dotVectors p3 v1
  let y3 := dotVectors p3 v2
  let detT := (y2 - y3) * (x1 - x3) + (x3 - x2) * (y1 - y3)
  { position := position, normalVector := normalVector, p1 := p1, p2 := p2, p3 := p3,
    v1 := v1, v2 := v2, x1 := x1, y1 := y1, x2 := x2, y2 := y2, x3 := x3, y3 := y3,
    detT := detT, uv1 := ⟨0, 0, 0⟩, uv2 := ⟨1, 0, 0⟩, uv3 := ⟨0, 1, 0⟩ }

/-- Embeds `Triangle::getNormalVector`. -/
def Triangle.getNormalVector (self : Triangle K) (_point : vec3 K) : vec3 K :=
  self.normalVector

/-- Embeds `Triangle::computeBarycentric`. -/
def Triangle.computeBarycentric (self : Triangle K) (point : vec3 K) : vec3 K :=
  let x := dotVectors point self.v1
  let y := dotVectors point self.v2
  let lambda1 :=
    ((self.y2 - self.y3) * (x - self.x3) + (self.x3 - self.x2) * (y - self.y3)) / self.detT
  let lambda2 :=
    ((self.y3 - self.y1) * (x - self.x3) + (self.x1 - self.x3) * (y - self.y3)) / self.detT
  ⟨lambda1, lambda2, 1 - lambda1 - lambda2⟩

/-- Embeds `Triangle::getUV`. -/
def Triangle.getUV (self : Triangle K) (hitPoint : vec3 K) : vec3 K :=
  let barycentricVector := self.computeBarycentric hitPoint
  self.uv1 * barycentricVector.get 0 + self.uv2 * barycentricVector.get 1 +
    self.uv3 * barycentricVector.get 2

/-- Embeds `Triangle::findClosestHit`. -/
def Triangle.findClosestHit (EPSILON : K) (self : Triangle K) (ray : Ray K)
    (uninit : Hit K) : Hit K :=
  let hit : Hit K := { uninit with objectID := 0, distance := -1 }
  let shiftedPoint := ray.starting_position - self.position
  let directionDotNormal := -dotVectors ray.direction_vector self.normalVector
  if |directionDotNormal| < EPSILON then hit
  else
    let distancesToStart := dotVectors shiftedPoint self.normalVector
    let distance := distancesToStart / directionDotNormal
    if distance < 0 then hit
    else
      let inPlanePoint := ray.starting_position + ray.direction_vector * distance
      let barycentricVector := self.computeBarycentric inPlanePoint
      if barycentricVector.get 0 < 0 ∨ barycentricVector.get 1 < 0 ∨
          barycentricVector.get 2 < 0 then hit
      else { hit with distance := distance }

/-- An object of the scene list: an instance of the base class `Object` itself, or of one of
the four classes of `objects.h` derived from it. -/
inductive Object (K : Type) where
  | base
  | sphere (s : Sphere K)
  | plane (p : Plane K)
  | rectangle (r : Rectangle K)
  | triangle (t : Triangle K)
  deriving DecidableEq, Repr

/-- The virtual method `findClosestHit`: the placeholder of the base class throws, the
derived classes override it. -/
def Object.findClosestHit (EPSILON : K) (sqrt : K → K) (uninit : Hit K) :
    Object K → Ray K → Except ObjectError (Hit K)
  | .base, _ => .error .VirtualMethodNotAllowedException
  | .sphere s, ray => .ok (s.findClosestHit sqrt ray uninit)
  | .plane p, ray => .ok (p.findClosestHit EPSILON ray uninit)
  | .rectangle r, ray => .ok (r.findClosestHit EPSILON ray uninit)
  | .triangle t, ray => .ok (t.findClosestHit EPSILON ray uninit)

/-- The virtual method `getNormalVector`: the placeholder of the base class throws, the
derived classes override it (`Rectangle` inherits the override of `Plane`). -/
def Object.getNormalVector (sqrt : K → K) : Object K → vec3 K → Except ObjectError (vec3 K)
  | .base, _ => .error .VirtualMethodNotAllowedException
  | .sphere s, point => .ok (s.getNormalVector sqrt point)
  | .plane p, point => .ok (p.getNormalVector point)
  | .rectangle r, point => .ok (r.toPlane.getNormalVector point)
  | .triangle t, point => .ok (t.getNormalVector point)

/-- Embeds `Object::areaToAnglePDFFactor`. -/
def Object.areaToAnglePDFFactor (sqrt : K → K) (self : Object K)
    (surfacePoint referencePoint : vec3 K) : Except ObjectError K :=
  match self.getNormalVector sqrt surfacePoint with
  | .error e => .error e
  | .ok normalVector =>
    let differenceVector := referencePoint - surfacePoint
    let vectorToPoint := normalizeVector sqrt differenceVector
    let inversePDF := dotVectors normalVector vectorToPoint / differenceVector.length_squared
    .ok (max 0 inversePDF)

/-- The loop `for (int i = 0; i < size; i++)` of the scene query `findClosestHit`, entered at
index `i` with `n` iterations left and the closest hit so far. -/
def findClosestHit_loop (EPSILON : K) (sqrt : K → K) (uninit : Hit K) (ray : Ray K)
    (objects : List (Object K)) : Nat → Nat → Hit K → Except ObjectError (Hit K)
  | _, 0, closestHit => .ok closestHit
  | i, n + 1, closestHit =>
    match objects[i]? with
    | none => .error .out_of_bounds
    | some object =>
      match object.findClosestHit EPSILON sqrt uninit ray with
      | .error e => .error e
      | .ok hit =>
        if hit.distance > EPSILON ∧
            (hit.distance < closestHit.distance ∨ closestHit.distance = -1) then
          findClosestHit_loop EPSILON sqrt uninit ray objects (i + 1) n
            { hit with intersectedObjectIndex := i }
        else findClosestHit_loop EPSILON sqrt uninit ray objects (i + 1) n closestHit

/-- Embeds the scene query `findClosestHit(ray, objects, size)` of `objects.h`. -/
def findClosestHit (EPSILON : K) (sqrt : K → K) (uninit : Hit K) (ray : Ray K)
    (objects : List (Object K)) (size : Int) : Except ObjectError (Hit K) :=
  match findClosestHit_loop EPSILON sqrt uninit ray objects 0 size.toNat
      { uninit with distance := -1 } with
  | .error e => .error e
  | .ok closestHit =>
    if closestHit.distance < EPSILON then .ok closestHit
    else
      let intersectionPoint := ray.starting_position + ray.direction_vector * closestHit.distance
      match objects[closestHit.intersectedObjectIndex.toNat]? with
      | none => .error .out_of_bounds
      | some object =>
        match object.getNormalVector sqrt intersectionPoint with
        | .error e => .error e
        | .ok normalVector =>
          .ok { closestHit with
                intersectionPoint := intersectionPoint
                normalVector := normalVector
                incomingVector := ray.direction_vector }

/-- What the loop of the scene query has established after scanning the objects at indices
below `i`, with `closestHit` the closest hit so far: either no scanned object has a distance
above `EPSILON` and `closestHit` is still the initial one with distance -1, or `closestHit` is
the hit of the object at some index `j < i` (with that index recorded), its distance is above
`EPSILON`, no scanned object has a smaller distance above `EPSILON`, and every such object
scanned before `j` has a strictly larger one. -/
def closest_so_far (EPSILON : K) (sqrt : K → K) (uninit : Hit K) (ray : Ray K)
    (objects : List (Object K)) (i : Nat) (closestHit : Hit K) : Prop :=
  (closestHit = { uninit with distance := -1 } ∧
    ∀ k o h, k < i → objects[k]? = some o →
      o.findClosestHit EPSILON sqrt uninit ray = .ok h → ¬ EPSILON < h.distance) ∨
  (∃ j o h, j < i ∧ objects[j]? = some o ∧
    o.findClosestHit EPSILON sqrt uninit ray = .ok h ∧
    closestHit = { h with intersectedObjectIndex := (j : Int) } ∧ EPSILON < h.distance ∧
    ∀ k o1 h1, k < i → objects[k]? = some o1 →
      o1.findClosestHit EPSILON sqrt uninit ray = .ok h1 → EPSILON < h1.distance →
      h.distance ≤ h1.distance ∧ (k < j → h.distance < h1.distance))

end Scalars

/-- The triangle spanned by `p1`, `p2`, `p3`: the points `a*p1 + b*p2 + c*p3` with
non-negative weights that sum to 1. -/
def in_triangle (p1 p2 p3 P : vec3 ℝ) : Prop :=
  ∃ a b c : ℝ, 0 ≤ a ∧ 0 ≤ b ∧ 0 ≤ c ∧ a + b + c = 1 ∧ P = p1 * a + p2 * b + p3 * c

/-- A `Hit` whose members are all zero, used as the content of an unassigned `Hit`. -/
def blank_hit (K : Type) [LinearOrderedField K] : Hit K :=
  ⟨0, ⟨0, 0, 0⟩, ⟨0, 0, 0⟩, ⟨0, 0, 0⟩, 0, 0⟩

/-- The ray from (0,0,5) towards (0,0,-1). -/
def down_ray (K : Type) [LinearOrderedField K] : Ray K := ⟨⟨0, 0, 5⟩, ⟨0, 0, -1⟩⟩

/-- A scene of three objects facing `down_ray`: the plane `z = 0` (distance 5) and two
rectangles in the plane `z = 1` (distance 4 each). -/
def three_object_scene : List (Object ℚ) :=
  [.plane ⟨⟨0, 0, 0⟩, ⟨1, 0, 0⟩, ⟨0, 1, 0⟩, ⟨0, 0, 1⟩⟩,
   .rectangle ⟨⟨⟨0, 0, 1⟩, ⟨1, 0, 0⟩, ⟨0, 1, 0⟩, ⟨0, 0, 1⟩⟩, 2, 2⟩,
   .rectangle ⟨⟨⟨0, 0, 1⟩, ⟨1, 0, 0⟩, ⟨0, 1, 0⟩, ⟨0, 0, 1⟩⟩, 4, 4⟩]

/-! ## Medium stack: lemmas -/

theorem add_scan_not_found (arr : List (Option Ptr)) (ids : IdStore) (id : Int) :
    ∀ (n i : Nat), (∀ k, k < n → ∃ p, arr[i + k]? = some (some p) ∧ ids p ≠ id) →
      add_scan arr ids id i n = .not_found := by
  intro n
  induction n with
  | zero => intro i _; rfl
  | succ n ih =>
    intro i h
    obtain ⟨p, hp, hne⟩ := h 0 (Nat.succ_pos n)
    have hp0 : arr[i]? = some (some p) := by simpa using hp
    have hrest : ∀ k, k < n → ∃ q, arr[i + 1 + k]? = some (some q) ∧ ids q ≠ id := by
      intro k hk
      have := h (k + 1) (Nat.succ_lt_succ hk)
      rwa [show i + (k + 1) = i + 1 + k by omega] at this
    simp [add_scan, hp0, hne, ih (i + 1) hrest]

theorem add_scan_found (arr : List (Option Ptr)) (ids : IdStore) (id : Int) :
    ∀ (k i n : Nat), k < n → (∃ p, arr[i + k]? = some (some p) ∧ ids p = id) →
      (∀ j, j < k → ∃ q, arr[i + j]? = some (some q)) →
      ∃ m, add_scan arr ids id i n = .found m := by
  intro k
  induction k with
  | zero =>
    intro i n hn hk _
    obtain ⟨p, hp, hid⟩ := hk
    obtain ⟨n, rfl⟩ : ∃ n', n = n' + 1 := ⟨n - 1, by omega⟩
    have hp0 : arr[i]? = some (some p) := by simpa using hp
    exact ⟨i, by simp [add_scan, hp0, hid]⟩
  | succ k ih =>
    intro i n hn hk hbelow
    obtain ⟨n, rfl⟩ : ∃ n', n = n' + 1 := ⟨n - 1, by omega⟩
    obtain ⟨q, hq⟩ := hbelow 0 (Nat.succ_pos k)
    have hq0 : arr[i]? = some (some q) := by simpa using hq
    by_cases hid : ids q = id
    · exact ⟨i, by simp [add_scan, hq0, hid]⟩
    · have hk1 : ∃ p, arr[i + 1 + k]? = some (some p) ∧ ids p = id := by
        rwa [show i + 1 + k = i + (k + 1) by omega]
      have hb1 : ∀ j, j < k → ∃ q, arr[i + 1 + j]? = some (some q) := by
        intro j hj
        have := hbelow (j + 1) (Nat.succ_lt_succ hj)
        rwa [show i + (j + 1) = i + 1 + j by omega] at this
      obtain ⟨m, hm⟩ := ih (i + 1) n (by omega) hk1 hb1
      exact ⟨m, by simp [add_scan, hq0, hid, hm]⟩

theorem pop_scan_not_found (arr : List (Option Ptr)) (ids : IdStore) (id : Int) :
    ∀ n : Nat, (∀ k, k < n → ∃ p, arr[k]? = some (some p) ∧ ids p ≠ id) →
      pop_scan arr ids id n = .not_found := by
  intro n
  induction n with
  | zero => intro _; rfl
  | succ n ih =>
    intro h
    obtain ⟨p, hp, hne⟩ := h n (Nat.lt_succ_self n)
    simp [pop_scan, hp, hne, ih (fun k hk => h k (Nat.lt_succ_of_lt hk))]

theorem pop_scan_top (arr : List (Option Ptr)) (ids : IdStore) (id : Int) (n : Nat) (p : Ptr)
    (hp : arr[n]? = some (some p)) (hid : ids p = id) :
    pop_scan arr ids id (n + 1) = .found n := by
  simp [pop_scan, hp, hid]


theorem add_medium_of_found (MAX_STACK_SIZE : Nat) (s : MediumStack) (ids : IdStore)
    (medium : Option Ptr) (id : Int) (m : Nat) (hcap : s.stack_size ≠ MAX_STACK_SIZE)
    (h : add_scan s.medium_array ids id 0 s.stack_size = .found m) :
    add_medium MAX_STACK_SIZE s ids medium id = (.ok, s, ids) := by
  simp [add_medium, hcap, h]

theorem add_medium_of_absent (MAX_STACK_SIZE : Nat) (s : MediumStack) (ids : IdStore)
    (p : Ptr) (id : Int) (hlen : s.medium_array.length = MAX_STACK_SIZE)
    (hcap : s.stack_size < MAX_STACK_SIZE) (hne : occupied_nonempty s)
    (habs : id_absent s ids id) :
    add_medium MAX_STACK_SIZE s ids (some p) id =
      (.ok, { medium_array := s.medium_array.set s.stack_size (some p),
              stack_size := s.stack_size + 1 }, Function.update ids p id) := by
  have hscan : add_scan s.medium_array ids id 0 s.stack_size = .not_found := by
    apply add_scan_not_found
    intro k hk
    obtain ⟨q, hq⟩ := hne k hk
    exact ⟨q, by simpa using hq, habs k q hk hq⟩
  have h1 : s.stack_size ≠ MAX_STACK_SIZE := Nat.ne_of_lt hcap
  have h2 : s.stack_size < s.medium_array.length := by omega
  simp [add_medium, h1, hscan, h2]

theorem pop_medium_of_absent (s : MediumStack) (ids : IdStore) (id : Int)
    (hne : occupied_nonempty s) (habs : id_absent s ids id) :
    pop_medium s ids id = (.ok, s, ids) := by
  have hscan : pop_scan s.medium_array ids id s.stack_size = .not_found := by
    apply pop_scan_not_found
    intro k hk
    obtain ⟨q, hq⟩ := hne k hk
    exact ⟨q, hq, habs k q hk hq⟩
  simp [pop_medium, hscan]


theorem represents_slot {r : List (Ptr × Int)} {s : MediumStack} {ids : IdStore}
    (h : represents r s ids) (i : Nat) (hi : i < s.stack_size) :
    ∃ e, r.reverse[i]? = some e ∧ s.medium_array[i]? = some (some e.1) ∧ ids e.1 = e.2 ∧
      e ∈ r := by
  obtain ⟨hsz, hle, htake, hid, -, -⟩ := h
  have hir : i < r.reverse.length := by simp; omega
  have hmem : r.reverse[i] ∈ r := List.mem_reverse.mp (List.getElem_mem hir)
  refine ⟨r.reverse[i], List.getElem?_eq_getElem hir, ?_, hid _ hmem, hmem⟩
  · have h1 : (s.medium_array.take s.stack_size)[i]? = s.medium_array[i]? := by
      simp [List.getElem?_take, hi]
    rw [← h1, htake, List.getElem?_map, List.getElem?_eq_getElem hir]
    rfl

theorem represents_occupied {r : List (Ptr × Int)} {s : MediumStack} {ids : IdStore}
    (h : represents r s ids) : occupied_nonempty s := by
  intro i hi
  obtain ⟨e, -, he, -, -⟩ := represents_slot h i hi
  exact ⟨e.1, he⟩

theorem represents_absent {r : List (Ptr × Int)} {s : MediumStack} {ids : IdStore}
    (h : represents r s ids) (id : Int) (hid : id ∉ r.map Prod.snd) : id_absent s ids id := by
  intro i p hi hp hpid
  obtain ⟨e, -, he, heid, hmem⟩ := represents_slot h i hi
  have hpe : p = e.1 := by
    rw [hp] at he
    exact Option.some.inj (Option.some.inj he)
  apply hid
  rw [← hpid, hpe, heid]
  exact List.mem_map_of_mem Prod.snd hmem

theorem represents_distinct {r : List (Ptr × Int)} {s : MediumStack} {ids : IdStore}
    (h : represents r s ids) : distinct_ids s ids := by
  intro i j p q hi hj hp hq hpq
  obtain ⟨e, her, he, heid, -⟩ := represents_slot h i hi
  obtain ⟨f, hfr, hf, hfid, -⟩ := represents_slot h j hj
  have hpe : p = e.1 := by
    rw [hp] at he
    exact Option.some.inj (Option.some.inj he)
  have hqf : q = f.1 := by
    rw [hq] at hf
    exact Option.some.inj (Option.some.inj hf)
  have hsnd : e.2 = f.2 := by rw [← heid, ← hfid, ← hpe, ← hqf, hpq]
  have hnd : ((r.map Prod.snd).reverse).Nodup := List.nodup_reverse.mpr h.2.2.2.2.1
  rw [← List.map_reverse] at hnd
  have hlen : s.stack_size = (r.reverse.map Prod.snd).length := by simp [h.1]
  have hi1 : i < (r.reverse.map Prod.snd).length := hlen ▸ hi
  have hj1 : j < (r.reverse.map Prod.snd).length := hlen ▸ hj
  have e1 : (r.reverse.map Prod.snd)[i]? = some e.2 := by rw [List.getElem?_map, her]; rfl
  have e2 : (r.reverse.map Prod.snd)[j]? = some f.2 := by rw [List.getElem?_map, hfr]; rfl
  rw [List.getElem?_eq_getElem hi1] at e1
  rw [List.getElem?_eq_getElem hj1] at e2
  have : (r.reverse.map Prod.snd)[i] = (r.reverse.map Prod.snd)[j] := by
    rw [Option.some.inj e1, Option.some.inj e2, hsnd]
  exact (hnd.getElem_inj_iff).mp this

theorem represents_get_medium {r : List (Ptr × Int)} {s : MediumStack} {ids : IdStore}
    (h : represents r s ids) : get_medium s = .ok (r.head?.map Prod.fst) := by
  cases r with
  | nil =>
    have : s.stack_size = 0 := h.1
    simp [get_medium, this]
  | cons e r =>
    have hsz : s.stack_size = r.length + 1 := h.1
    obtain ⟨f, hfr, hf, -, -⟩ := represents_slot h r.length (by omega)
    have hfe : f = e := by
      have : (e :: r).reverse[r.length]? = some e := by
        simp [List.getElem?_append_right]
      rw [this] at hfr
      exact (Option.some.inj hfr).symm
    subst hfe
    simp [get_medium, hsz, hf]

theorem represents_add (MAX_STACK_SIZE : Nat) {r : List (Ptr × Int)} {s : MediumStack}
    {ids : IdStore} (h : represents r s ids) (hlen : s.medium_array.length = MAX_STACK_SIZE)
    (p : Ptr) (id : Int) (hp : p ∉ r.map Prod.fst) (hid : id ∉ r.map Prod.snd)
    (hcap : r.length < MAX_STACK_SIZE) :
    ∃ s1 ids1, add_medium MAX_STACK_SIZE s ids (some p) id = (.ok, s1, ids1) ∧
      represents ((p, id) :: r) s1 ids1 ∧ s1.medium_array.length = MAX_STACK_SIZE := by
  have hsz : s.stack_size = r.length := h.1
  have hlt : s.stack_size < s.medium_array.length := by omega
  refine ⟨_, _, add_medium_of_absent MAX_STACK_SIZE s ids p id hlen (by omega)
    (represents_occupied h) (represents_absent h id hid), ?_, by simpa using hlen⟩
  refine ⟨by simp [hsz], by simp; omega, ?_, ?_, ?_, ?_⟩
  · have h3 := h.2.2.1
    have h4 : (s.medium_array.set s.stack_size (some p))[s.stack_size]? = some (some p) := by
      simp [List.getElem?_set, hlt]
    have h5 : (s.medium_array.set s.stack_size (some p)).take s.stack_size =
        s.medium_array.take s.stack_size := by
      apply List.ext_getElem?
      intro i
      by_cases hi : i < s.stack_size
      · simp [List.getElem?_take, hi, List.getElem?_set, Nat.ne_of_gt hi]
      · simp [List.getElem?_take, hi]
    show List.take (s.stack_size + 1) (s.medium_array.set s.stack_size (some p)) = _
    rw [List.take_succ, h4, h5, h3]
    simp
  · intro e he
    rcases List.mem_cons.mp he with rfl | he
    · simp
    · have hne : e.1 ≠ p := fun hh => hp (hh ▸ List.mem_map_of_mem Prod.fst he)
      simp [Function.update, hne, h.2.2.2.1 e he]
  · exact List.nodup_cons.mpr ⟨hid, h.2.2.2.2.1⟩
  · exact List.nodup_cons.mpr ⟨hp, h.2.2.2.2.2⟩

theorem represents_pop {e : Ptr × Int} {r : List (Ptr × Int)} {s : MediumStack}
    {ids : IdStore} (h : represents (e :: r) s ids) :
    ∃ s1, pop_medium s ids e.2 = (.ok, s1, ids) ∧ represents r s1 ids ∧
      s1.medium_array.length = s.medium_array.length := by
  have hsz : s.stack_size = r.length + 1 := h.1
  obtain ⟨f, hfr, hf, hfid, -⟩ := represents_slot h r.length (by omega)
  have hfe : f = e := by
    have : (e :: r).reverse[r.length]? = some e := by
      simp [List.getElem?_append_right]
    rw [this] at hfr
    exact (Option.some.inj hfr).symm
  subst hfe
  have hscan : pop_scan s.medium_array ids f.2 s.stack_size = .found r.length := by
    rw [hsz]
    exact pop_scan_top s.medium_array ids f.2 r.length f.1 hf hfid
  refine ⟨{ medium_array := s.medium_array.set r.length none, stack_size := s.stack_size - 1 },
    by simp [pop_medium, hscan], ?_, by simp⟩
  have hle := h.2.1
  refine ⟨by simp [hsz], by simp; omega, ?_, fun x hx => h.2.2.2.1 x (List.mem_cons_of_mem _ hx),
    (List.nodup_cons.mp h.2.2.2.2.1).2, (List.nodup_cons.mp h.2.2.2.2.2).2⟩
  have h3 := h.2.2.1
  rw [hsz, List.take_succ, hf] at h3
  simp only [List.reverse_cons, List.map_append, List.map_cons, List.map_nil,
    Option.toList_some] at h3
  have h6 := List.append_inj_left' h3 rfl
  show List.take (s.stack_size - 1) (s.medium_array.set r.length none) = _
  rw [hsz, Nat.add_sub_cancel, ← h6]
  apply List.ext_getElem?
  intro i
  by_cases hi : i < r.length
  · simp [List.getElem?_take, hi, List.getElem?_set, Nat.ne_of_gt hi]
  · simp [List.getElem?_take, hi]

theorem nested_run (MAX_STACK_SIZE : Nat) (ops : List Op) :
    ∀ (r : List (Ptr × Int)) (s : MediumStack) (ids : IdStore), represents r s ids →
      s.medium_array.length = MAX_STACK_SIZE → nested MAX_STACK_SIZE r ops = true →
      ∃ s1 ids1, run MAX_STACK_SIZE s ids ops = (.ok, s1, ids1) ∧
        represents (resident_after r ops) s1 ids1 := by
  induction ops with
  | nil => intro r s ids h _ _; exact ⟨s, ids, rfl, h⟩
  | cons op ops ih =>
    intro r s ids h hlen hn
    cases op with
    | enter p id =>
      simp only [nested, Bool.and_eq_true, decide_eq_true_eq] at hn
      obtain ⟨⟨⟨hp, hid⟩, hcap⟩, hrest⟩ := hn
      obtain ⟨s1, ids1, hadd, hrep, hlen1⟩ := represents_add MAX_STACK_SIZE h hlen p id hp hid hcap
      obtain ⟨s2, ids2, hrun, hrep2⟩ := ih _ s1 ids1 hrep hlen1 hrest
      exact ⟨s2, ids2, by simp [run, step, hadd, hrun], hrep2⟩
    | exit id =>
      simp only [nested, Bool.and_eq_true, decide_eq_true_eq] at hn
      obtain ⟨htop, hrest⟩ := hn
      cases r with
      | nil => simp at htop
      | cons e r =>
        have he : e.2 = id := by simpa using htop
        subst he
        have herase : erase_id e.2 (e :: r) = r := by simp [erase_id]
        rw [herase] at hrest
        obtain ⟨s1, hpop, hrep, hlen1⟩ := represents_pop h
        obtain ⟨s2, ids2, hrun, hrep2⟩ := ih _ s1 ids hrep (hlen1.trans hlen) hrest
        exact ⟨s2, ids2, by simp [run, step, hpop, hrun], by simpa [resident_after, herase] using hrep2⟩

theorem nested_take (MAX_STACK_SIZE : Nat) (ops : List Op) :
    ∀ (r : List (Ptr × Int)) (k : Nat), nested MAX_STACK_SIZE r ops = true →
      nested MAX_STACK_SIZE r (ops.take k) = true := by
  induction ops with
  | nil => intro r k h; simpa using h
  | cons op ops ih =>
    intro r k h
    cases k with
    | zero => simp [nested]
    | succ k =>
      cases op with
      | enter p id =>
        simp only [nested, Bool.and_eq_true, decide_eq_true_eq] at h
        simp only [List.take_succ_cons, nested, Bool.and_eq_true, decide_eq_true_eq]
        exact ⟨h.1, ih _ k h.2⟩
      | exit id =>
        simp only [nested, Bool.and_eq_true, decide_eq_true_eq] at h
        simp only [List.take_succ_cons, nested, Bool.and_eq_true, decide_eq_true_eq]
        exact ⟨h.1, ih _ k h.2⟩

theorem represents_empty (medium_array : List (Option Ptr)) (ids : IdStore) :
    represents [] (MediumStack.empty medium_array) ids := by
  simp [represents, MediumStack.empty]

theorem three_entered_occupied : occupied_nonempty (three_entered 4).2.1 := by
  intro i hi
  have hi3 : i < 3 := hi
  interval_cases i
  · exact ⟨10, by decide⟩
  · exact ⟨11, by decide⟩
  · exact ⟨12, by decide⟩

theorem three_entered_absent (id : Int) (h : id ≠ 1 ∧ id ≠ 2 ∧ id ≠ 3) :
    id_absent (three_entered 4).2.1 (three_entered 4).2.2 id := by
  intro i p hi hp
  have hi3 : i < 3 := hi
  have h10 : (three_entered 4).2.2 10 = 1 := by decide
  have h11 : (three_entered 4).2.2 11 = 2 := by decide
  have h12 : (three_entered 4).2.2 12 = 3 := by decide
  have harr : (three_entered 4).2.1.medium_array = [some 10, some 11, some 12, none] := by
    decide
  rw [harr] at hp
  interval_cases i
  · obtain rfl : 10 = p := by simpa using hp
    rw [h10]; exact fun hh => h.1 hh.symm
  · obtain rfl : 11 = p := by simpa using hp
    rw [h11]; exact fun hh => h.2.1 hh.symm
  · obtain rfl : 12 = p := by simpa using hp
    rw [h12]; exact fun hh => h.2.2 hh.symm

/-- After an exit below the top the scan of `add_medium` meets the cleared slot before it
reaches a resident identity: in `bottom_exited` slot 1 carries identity 2, and entering
identity 2 again dereferences the `nullptr` in slot 0. -/
theorem reenter_above_cleared_slot_faults :
    bottom_exited.1 = .ok ∧
    bottom_exited.2.1 = ⟨[none, some 11, some 12, none], 2⟩ ∧
    carries bottom_exited.2.1 bottom_exited.2.2 1 2 ∧
    (add_medium 4 bottom_exited.2.1 bottom_exited.2.2 (some 11) 2).1 = .null_dereference := by
  refine ⟨by decide, by decide, ⟨11, by decide, by decide⟩, by decide⟩

/-! ## Media: lemmas -/

section VectorLemmas

variable {K : Type} [LinearOrderedField K]

theorem vec3.add_def (a b : vec3 K) : a + b = ⟨a.x + b.x, a.y + b.y, a.z + b.z⟩ := rfl

theorem vec3.sub_def (a b : vec3 K) : a - b = ⟨a.x - b.x, a.y - b.y, a.z - b.z⟩ := rfl

theorem vec3.neg_def (a : vec3 K) : -a = ⟨-a.x, -a.y, -a.z⟩ := rfl

theorem vec3.mul_def (a b : vec3 K) : a * b = ⟨a.x * b.x, a.y * b.y, a.z * b.z⟩ := rfl

theorem vec3.scale_def (a : vec3 K) (k : K) : a * k = ⟨a.x * k, a.y * k, a.z * k⟩ := rfl

theorem vec3.div_def (a : vec3 K) (k : K) : a / k = ⟨a.x / k, a.y / k, a.z / k⟩ := rfl

theorem transmittance_albedo_eq (exp : K → K) (m : Medium K) (d : K) :
    m.transmittance_albedo exp d =
      ⟨exp (-m.extinction_albedo.x * d), exp (-m.extinction_albedo.y * d),
       exp (-m.extinction_albedo.z * d)⟩ := rfl

theorem pdf_loop_eq (density : vec3 K) :
    Fin.foldl 3 (fun pdf i => pdf + density.get i) 0 * (1 / 3) =
      (density.x + density.y + density.z) / 3 := by
  simp [Fin.foldl_succ, vec3.get]
  ring

end VectorLemmas

/-! ## Medium stack: claims -/

/-- Claim C1, as stated, fails on the code: with capacity 3 and media entered as identities
1, 2, 3 the stack holds three media, the one in slot 2 carries identity 3, and re-entering
identity 3 ends in the `std::invalid_argument` of the capacity check, not in a silent
return. -/
theorem reenter_at_capacity_throws :
    (three_entered 3).1 = .ok ∧
    (three_entered 3).2.1 = ⟨[some 10, some 11, some 12], 3⟩ ∧
    carries (three_entered 3).2.1 (three_entered 3).2.2 2 3 ∧
    (add_medium 3 (three_entered 3).2.1 (three_entered 3).2.2 (some 12) 3).1
      = .invalid_argument := by
  refine ⟨by decide, by decide, ⟨12, by decide, by decide⟩, by decide⟩

/-- Claim C1, amended: on a stack whose occupancy is below the capacity, if slot `i` of the
occupied part holds a medium carrying identity `id` and every slot below `i` holds a medium,
`add_medium(medium, id)` returns normally and leaves the occupancy count, every slot and
every identity unchanged. -/
theorem add_medium_resident_is_noop (MAX_STACK_SIZE : Nat) (s : MediumStack) (ids : IdStore)
    (medium : Option Ptr) (id : Int) (i : Nat)
    (hcap : s.stack_size < MAX_STACK_SIZE) (hi : i < s.stack_size)
    (hres : carries s ids i id)
    (hbelow : ∀ j, j < i → ∃ q, s.medium_array[j]? = some (some q)) :
    add_medium MAX_STACK_SIZE s ids medium id = (.ok, s, ids) := by
  obtain ⟨m, hm⟩ := add_scan_found s.medium_array ids id i 0 s.stack_size hi
    (by simpa [carries] using hres) (by simpa using hbelow)
  exact add_medium_of_found MAX_STACK_SIZE s ids medium id m (Nat.ne_of_lt hcap) hm

/-- Capacity 4, identities 1, 2, 3 entered, identity 3 entered again: nothing changes. -/
theorem add_medium_resident_is_noop_witness :
    add_medium 4 (three_entered 4).2.1 (three_entered 4).2.2 (some 12) 3 =
      (.ok, (three_entered 4).2.1, (three_entered 4).2.2) :=
  add_medium_resident_is_noop 4 (three_entered 4).2.1 (three_entered 4).2.2 (some 12) 3 2
    (by decide) (by decide) ⟨12, by decide, by decide⟩
    (by
      intro j hj
      interval_cases j
      · exact ⟨10, by decide⟩
      · exact ⟨11, by decide⟩)

/-- Claim C2: on a stack whose occupancy count equals `MAX_STACK_SIZE`, `add_medium` ends in
`std::invalid_argument` and the occupancy count, every slot and every identity (that of the
medium passed in among them) are what they were; this holds whether or not a resident
carries `id`. -/
theorem add_medium_full_fails_atomically (MAX_STACK_SIZE : Nat) (s : MediumStack)
    (ids : IdStore) (medium : Option Ptr) (id : Int)
    (hfull : s.stack_size = MAX_STACK_SIZE) :
    add_medium MAX_STACK_SIZE s ids medium id = (.invalid_argument, s, ids) := by
  simp [add_medium, hfull]

/-- Capacity 3, identities 1, 2, 3 entered, a fourth medium entered as identity 4. -/
theorem add_medium_full_fails_atomically_witness :
    (three_entered 3).2.1.stack_size = 3 ∧
    add_medium 3 (three_entered 3).2.1 (three_entered 3).2.2 (some 13) 4 =
      (.invalid_argument, (three_entered 3).2.1, (three_entered 3).2.2) :=
  ⟨by decide,
    add_medium_full_fails_atomically 3 (three_entered 3).2.1 (three_entered 3).2.2 (some 13) 4
      (by decide)⟩

/-- Claim C3: on a stack of occupancy `n` below the capacity whose `n` occupied slots all
hold a medium, none of them carrying `id`, `add_medium(m, id)` returns normally; afterwards
the occupancy count is `n + 1`, `m` carries `id`, `get_medium()` returns `m`, slots
`0 .. n-1` hold the media they held, and no other medium has changed identity. -/
theorem add_medium_fresh_pushes (MAX_STACK_SIZE : Nat) (s : MediumStack) (ids : IdStore)
    (m : Ptr) (id : Int) (hlen : s.medium_array.length = MAX_STACK_SIZE)
    (hcap : s.stack_size < MAX_STACK_SIZE) (hne : occupied_nonempty s)
    (habs : id_absent s ids id) :
    (add_medium MAX_STACK_SIZE s ids (some m) id).1 = .ok ∧
    (add_medium MAX_STACK_SIZE s ids (some m) id).2.1.stack_size = s.stack_size + 1 ∧
    (add_medium MAX_STACK_SIZE s ids (some m) id).2.2 m = id ∧
    get_medium (add_medium MAX_STACK_SIZE s ids (some m) id).2.1 = .ok (some m) ∧
    (∀ i, i < s.stack_size →
      (add_medium MAX_STACK_SIZE s ids (some m) id).2.1.medium_array[i]? =
        s.medium_array[i]?) ∧
    (∀ q, q ≠ m → (add_medium MAX_STACK_SIZE s ids (some m) id).2.2 q = ids q) := by
  rw [add_medium_of_absent MAX_STACK_SIZE s ids m id hlen hcap hne habs]
  have h2 : s.stack_size < s.medium_array.length := by omega
  refine ⟨rfl, rfl, by simp, ?_, ?_, ?_⟩
  · simp [get_medium, h2]
  · intro i hi
    simp [List.getElem?_set, Nat.ne_of_gt hi]
  · intro q hq
    simp [Function.update, hq]

/-- Capacity 4, identities 1, 2, 3 entered, the medium at address 13 entered as identity 4. -/
theorem add_medium_fresh_pushes_witness :
    (add_medium 4 (three_entered 4).2.1 (three_entered 4).2.2 (some 13) 4).1 = .ok ∧
    (add_medium 4 (three_entered 4).2.1 (three_entered 4).2.2 (some 13) 4).2.1.stack_size
      = (three_entered 4).2.1.stack_size + 1 ∧
    (add_medium 4 (three_entered 4).2.1 (three_entered 4).2.2 (some 13) 4).2.2 13 = 4 ∧
    get_medium (add_medium 4 (three_entered 4).2.1 (three_entered 4).2.2 (some 13) 4).2.1
      = .ok (some 13) ∧
    (∀ i, i < (three_entered 4).2.1.stack_size →
      (add_medium 4 (three_entered 4).2.1 (three_entered 4).2.2 (some 13) 4).2.1.medium_array[i]?
        = (three_entered 4).2.1.medium_array[i]?) ∧
    (∀ q, q ≠ 13 →
      (add_medium 4 (three_entered 4).2.1 (three_entered 4).2.2 (some 13) 4).2.2 q
        = (three_entered 4).2.2 q) :=
  add_medium_fresh_pushes 4 (three_entered 4).2.1 (three_entered 4).2.2 13 4 (by decide)
    (by decide) three_entered_occupied (three_entered_absent 4 (by decide))

/-- Claim C4: on a stack whose occupied slots all hold a medium, none of them carrying `id`,
`pop_medium(id)` returns normally and leaves the occupancy count and every slot (and every
identity) unchanged. -/
theorem pop_medium_absent_is_noop (s : MediumStack) (ids : IdStore) (id : Int)
    (hne : occupied_nonempty s) (habs : id_absent s ids id) :
    pop_medium s ids id = (.ok, s, ids) := by
  have hscan : pop_scan s.medium_array ids id s.stack_size = .not_found := by
    apply pop_scan_not_found
    intro k hk
    obtain ⟨q, hq⟩ := hne k hk
    exact ⟨q, hq, habs k q hk hq⟩
  simp [pop_medium, hscan]

/-- Capacity 4, identities 1, 2, 3 entered, identity 7 exited: nothing changes. -/
theorem pop_medium_absent_is_noop_witness :
    pop_medium (three_entered 4).2.1 (three_entered 4).2.2 7 =
      (.ok, (three_entered 4).2.1, (three_entered 4).2.2) :=
  pop_medium_absent_is_noop (three_entered 4).2.1 (three_entered 4).2.2 7
    three_entered_occupied (three_entered_absent 7 (by decide))

/-- Claim C5: from the empty stack (whatever the array was allocated with), after every
step of a properly nested call sequence every call so far has returned normally, slots
`0 .. stack_size-1` all hold a medium and carry pairwise distinct identities, the occupancy
count is the number of media entered and not yet exited, and `get_medium()` returns the most
recently entered of them, `nullptr` exactly when there is none. -/
theorem nested_calls_keep_invariant (MAX_STACK_SIZE : Nat) (medium_array : List (Option Ptr))
    (ids : IdStore) (ops : List Op) (hlen : medium_array.length = MAX_STACK_SIZE)
    (hnested : nested MAX_STACK_SIZE [] ops = true) (k : Nat) :
    ∃ s1 ids1,
      run MAX_STACK_SIZE (MediumStack.empty medium_array) ids (ops.take k) = (.ok, s1, ids1) ∧
      occupied_nonempty s1 ∧ distinct_ids s1 ids1 ∧
      s1.stack_size = (resident_after [] (ops.take k)).length ∧
      get_medium s1 = .ok ((resident_after [] (ops.take k)).head?.map Prod.fst) ∧
      (get_medium s1 = .ok none ↔ resident_after [] (ops.take k) = []) := by
  obtain ⟨s1, ids1, hrun, hrep⟩ := nested_run MAX_STACK_SIZE (ops.take k) []
    (MediumStack.empty medium_array) ids (represents_empty medium_array ids) hlen
    (nested_take MAX_STACK_SIZE ops [] k hnested)
  refine ⟨s1, ids1, hrun, represents_occupied hrep, represents_distinct hrep, hrep.1,
    represents_get_medium hrep, ?_⟩
  rw [represents_get_medium hrep]
  cases resident_after [] (ops.take k) <;> simp

/-- Capacity 3: enter 1, enter 2, exit 2, enter 5, exit 5, observed after the fourth call. -/
theorem nested_calls_keep_invariant_witness :
    nested 3 [] [.enter 10 1, .enter 11 2, .exit 2, .enter 12 5, .exit 5] = true ∧
    ∃ s1 ids1,
      run 3 (MediumStack.empty [none, some 99, none]) (fun _ => 0)
        ([Op.enter 10 1, .enter 11 2, .exit 2, .enter 12 5, .exit 5].take 4) = (.ok, s1, ids1) ∧
      occupied_nonempty s1 ∧ distinct_ids s1 ids1 ∧
      s1.stack_size =
        (resident_after [] ([Op.enter 10 1, .enter 11 2, .exit 2, .enter 12 5, .exit 5].take 4)).length ∧
      get_medium s1 = .ok ((resident_after []
        ([Op.enter 10 1, .enter 11 2, .exit 2, .enter 12 5, .exit 5].take 4)).head?.map Prod.fst) ∧
      (get_medium s1 = .ok none ↔ resident_after []
        ([Op.enter 10 1, .enter 11 2, .exit 2, .enter 12 5, .exit 5].take 4) = []) :=
  ⟨by decide,
    nested_calls_keep_invariant 3 [none, some 99, none] (fun _ => 0)
      [.enter 10 1, .enter 11 2, .exit 2, .enter 12 5, .exit 5] rfl (by decide) 4⟩

/-! ## Media: claims

The scalar exponential is `Real.exp` where a claim depends on what the exponential is. -/

/-- Claim C6: for a medium constructed from non-negative scattering and absorption
coefficients and distances `0 ≤ d1 ≤ d2`, every channel of `transmittance_albedo` satisfies
`transmittance(d2) ≤ transmittance(d1) ≤ transmittance(0)`, and
`transmittance_albedo(0) = (1,1,1)`. -/
theorem transmittance_albedo_antitone (s a : vec3 ℝ) (hs : s.nonneg) (ha : a.nonneg)
    (d1 d2 : ℝ) (h0 : 0 ≤ d1) (h12 : d1 ≤ d2) :
    (∀ c : Fin 3,
      ((Medium.construct s a).transmittance_albedo Real.exp d2).get c ≤
        ((Medium.construct s a).transmittance_albedo Real.exp d1).get c ∧
      ((Medium.construct s a).transmittance_albedo Real.exp d1).get c ≤
        ((Medium.construct s a).transmittance_albedo Real.exp 0).get c) ∧
    (Medium.construct s a).transmittance_albedo Real.exp 0 = ⟨1, 1, 1⟩ := by
  obtain ⟨hsx, hsy, hsz⟩ := hs
  obtain ⟨hax, hay, haz⟩ := ha
  have key : ∀ e : ℝ, 0 ≤ e →
      Real.exp (-e * d2) ≤ Real.exp (-e * d1) ∧ Real.exp (-e * d1) ≤ Real.exp (-e * 0) := by
    intro e he
    constructor
    · apply Real.exp_le_exp.mpr
      nlinarith [mul_le_mul_of_nonneg_left h12 he]
    · apply Real.exp_le_exp.mpr
      nlinarith [mul_nonneg he h0]
  constructor
  · intro c
    simp only [transmittance_albedo_eq, Medium.construct, vec3.add_def]
    fin_cases c
    · exact key _ (add_nonneg hax hsx)
    · exact key _ (add_nonneg hay hsy)
    · exact key _ (add_nonneg haz hsz)
  · simp [transmittance_albedo_eq]

/-- Scattering (1/2, 0, 1), absorption (1, 2, 3), distances 1 and 2. -/
theorem transmittance_albedo_antitone_witness :
    (∀ c : Fin 3,
      ((Medium.construct ⟨1 / 2, 0, 1⟩ ⟨1, 2, 3⟩).transmittance_albedo Real.exp 2).get c ≤
        ((Medium.construct ⟨1 / 2, 0, 1⟩ ⟨1, 2, 3⟩).transmittance_albedo Real.exp 1).get c ∧
      ((Medium.construct ⟨1 / 2, 0, 1⟩ ⟨1, 2, 3⟩).transmittance_albedo Real.exp 1).get c ≤
        ((Medium.construct ⟨1 / 2, 0, 1⟩ ⟨1, 2, 3⟩).transmittance_albedo Real.exp 0).get c) ∧
    (Medium.construct ⟨1 / 2, 0, 1⟩ ⟨1, 2, 3⟩).transmittance_albedo Real.exp 0 = ⟨1, 1, 1⟩ :=
  transmittance_albedo_antitone ⟨1 / 2, 0, 1⟩ ⟨1, 2, 3⟩ (by norm_num [vec3.nonneg])
    (by norm_num [vec3.nonneg]) 1 2 (by norm_num) (by norm_num)

/-- Claim C7: whenever the scene query reports a hit for the incoming ray,
`BeersLawMedium::Integrate` leaves the outgoing ray equal to the incoming ray (which it does
not change) and the weight equal to 1 in every channel, whatever the reference parameters
held on entry. -/
theorem beers_law_integrate_passes_ray {K : Type} [LinearOrderedField K] {Obj : Type}
    (exp sqrt : K → K) (find_closest_hit : Ray K → List Obj → Int → Option (Hit K))
    (self : Medium K) (objects : List Obj) (number_of_objects : Int)
    (args : IntegrateArgs K) (hit : Hit K)
    (hhit : find_closest_hit args.incoming_ray objects number_of_objects = some hit) :
    (BeersLawMedium.Integrate exp sqrt find_closest_hit self objects number_of_objects
        args).outgoing_ray = args.incoming_ray ∧
    (BeersLawMedium.Integrate exp sqrt find_closest_hit self objects number_of_objects
        args).weight = ⟨1, 1, 1⟩ ∧
    (BeersLawMedium.Integrate exp sqrt find_closest_hit self objects number_of_objects
        args).incoming_ray = args.incoming_ray := by
  simp [BeersLawMedium.Integrate, hhit, vec3.broadcast]

/-- A ray from (0,0,5) towards (0,0,-1), a scene query that reports the hit at (0,0,1), and
reference parameters holding other values on entry. -/
theorem beers_law_integrate_passes_ray_witness :
    (BeersLawMedium.Integrate (fun x : ℚ => x) (fun x => x)
        (fun _ (_ : List Unit) _ => some ⟨4, ⟨0, 0, 1⟩, ⟨0, 0, 1⟩, ⟨0, 0, -1⟩, 0, 0⟩)
        (BeersLawMedium.construct ⟨7, 7, 7⟩ ⟨1, 2, 3⟩) [()] 1
        ⟨⟨⟨0, 0, 5⟩, ⟨0, 0, -1⟩⟩, ⟨0, 0, 0⟩, ⟨9, 9, 9⟩, ⟨5, 6, 7⟩,
          ⟨⟨1, 2, 3⟩, ⟨1, 0, 0⟩⟩⟩).outgoing_ray = ⟨⟨0, 0, 5⟩, ⟨0, 0, -1⟩⟩ ∧
    (BeersLawMedium.Integrate (fun x : ℚ => x) (fun x => x)
        (fun _ (_ : List Unit) _ => some ⟨4, ⟨0, 0, 1⟩, ⟨0, 0, 1⟩, ⟨0, 0, -1⟩, 0, 0⟩)
        (BeersLawMedium.construct ⟨7, 7, 7⟩ ⟨1, 2, 3⟩) [()] 1
        ⟨⟨⟨0, 0, 5⟩, ⟨0, 0, -1⟩⟩, ⟨0, 0, 0⟩, ⟨9, 9, 9⟩, ⟨5, 6, 7⟩,
          ⟨⟨1, 2, 3⟩, ⟨1, 0, 0⟩⟩⟩).weight = ⟨1, 1, 1⟩ ∧
    (BeersLawMedium.Integrate (fun x : ℚ => x) (fun x => x)
        (fun _ (_ : List Unit) _ => some ⟨4, ⟨0, 0, 1⟩, ⟨0, 0, 1⟩, ⟨0, 0, -1⟩, 0, 0⟩)
        (BeersLawMedium.construct ⟨7, 7, 7⟩ ⟨1, 2, 3⟩) [()] 1
        ⟨⟨⟨0, 0, 5⟩, ⟨0, 0, -1⟩⟩, ⟨0, 0, 0⟩, ⟨9, 9, 9⟩, ⟨5, 6, 7⟩,
          ⟨⟨1, 2, 3⟩, ⟨1, 0, 0⟩⟩⟩).incoming_ray = ⟨⟨0, 0, 5⟩, ⟨0, 0, -1⟩⟩ :=
  beers_law_integrate_passes_ray (fun x : ℚ => x) (fun x => x)
    (fun _ (_ : List Unit) _ => some ⟨4, ⟨0, 0, 1⟩, ⟨0, 0, 1⟩, ⟨0, 0, -1⟩, 0, 0⟩)
    (BeersLawMedium.construct ⟨7, 7, 7⟩ ⟨1, 2, 3⟩) [()] 1
    ⟨⟨⟨0, 0, 5⟩, ⟨0, 0, -1⟩⟩, ⟨0, 0, 0⟩, ⟨9, 9, 9⟩, ⟨5, 6, 7⟩, ⟨⟨1, 2, 3⟩, ⟨1, 0, 0⟩⟩⟩
    ⟨4, ⟨0, 0, 1⟩, ⟨0, 0, 1⟩, ⟨0, 0, -1⟩, 0, 0⟩ rfl

/-- Claim C8, as stated, fails on the code: for the medium with zero scattering and
absorption (0, 0, 1) at distance 1 the first channel of `sample(d, scatter=false)` is
`3 / (2 + exp(-1))`, which is not 1. -/
theorem sample_no_scatter_not_unit :
    (ScatteringMediumHomogenous.sample Real.exp
      (Medium.construct ⟨0, 0, 0⟩ ⟨0, 0, 1⟩) 1 false).x ≠ 1 := by
  simp only [ScatteringMediumHomogenous.sample, pdf_loop_eq, transmittance_albedo_eq]
  simp [Medium.construct, vec3.add_def, vec3.div_def]
  intro h
  have h1 : Real.exp (-1) < 1 := Real.exp_lt_one_iff.mpr (by norm_num)
  have h2 : 0 < Real.exp (-1) := Real.exp_pos _
  field_simp at h
  linarith

/-- Claim C8, amended: for a homogeneous scattering medium whose scattering coefficient is
zero in all three channels and whose absorption coefficients are equal across the three
channels, `sample(d, scatter=false)` is 1 in every channel at every distance. -/
theorem sample_no_scatter_unit_of_equal_absorption (a : vec3 ℝ) (hxy : a.x = a.y)
    (hyz : a.y = a.z) (d : ℝ) :
    ScatteringMediumHomogenous.sample Real.exp
      (Medium.construct ⟨0, 0, 0⟩ a) d false = ⟨1, 1, 1⟩ := by
  simp only [ScatteringMediumHomogenous.sample, pdf_loop_eq, transmittance_albedo_eq]
  simp only [Medium.construct, vec3.add_def, vec3.div_def, add_zero, ← hyz, ← hxy]
  have h2 : Real.exp (-a.x * d) ≠ 0 := (Real.exp_pos _).ne'
  simp
  field_simp
  ring

/-- Absorption (2, 2, 2), distance 3. -/
theorem sample_no_scatter_unit_of_equal_absorption_witness :
    ScatteringMediumHomogenous.sample Real.exp
      (Medium.construct ⟨0, 0, 0⟩ ⟨2, 2, 2⟩) 3 false = ⟨1, 1, 1⟩ :=
  sample_no_scatter_unit_of_equal_absorption ⟨2, 2, 2⟩ rfl rfl 3

/-- Claim C9: with `tr = transmittance_albedo(d)`, channel `c` of `sample(d, scatter=true)` is
`tr[c] * scattering[c] / pdf` with
`pdf = (extinction[0]*tr[0] + extinction[1]*tr[1] + extinction[2]*tr[2]) / 3`, and channel
`c` of `sample(d, scatter=false)` is `tr[c] / pdf` with `pdf = (tr[0] + tr[1] + tr[2]) / 3`. -/
theorem sample_formula {K : Type} [LinearOrderedField K] (exp : K → K) (self : Medium K)
    (d : K) :
    (∀ c : Fin 3,
      (ScatteringMediumHomogenous.sample exp self d true).get c =
        (self.transmittance_albedo exp d).get c * self.scattering_albedo.get c /
          ((self.extinction_albedo.get 0 * (self.transmittance_albedo exp d).get 0 +
            self.extinction_albedo.get 1 * (self.transmittance_albedo exp d).get 1 +
            self.extinction_albedo.get 2 * (self.transmittance_albedo exp d).get 2) / 3)) ∧
    (∀ c : Fin 3,
      (ScatteringMediumHomogenous.sample exp self d false).get c =
        (self.transmittance_albedo exp d).get c /
          (((self.transmittance_albedo exp d).get 0 + (self.transmittance_albedo exp d).get 1 +
            (self.transmittance_albedo exp d).get 2) / 3)) := by
  constructor
  · intro c
    simp only [ScatteringMediumHomogenous.sample, pdf_loop_eq]
    fin_cases c <;> simp [vec3.get, vec3.mul_def, vec3.div_def]
  · intro c
    simp only [ScatteringMediumHomogenous.sample, pdf_loop_eq]
    fin_cases c <;> simp [vec3.get, vec3.div_def]

/-- Claim C10: the medium built by the `BeersLawMedium` constructor from `(s, a)` has zero
scattering coefficient and extinction `a`, and its `sample` returns `exp(-a[c] * d)` in
channel `c` for every distance and either value of the scatter flag. -/
theorem beers_law_sample_raw_transmittance {K : Type} [LinearOrderedField K] (exp : K → K)
    (s a : vec3 K) :
    (BeersLawMedium.construct s a).scattering_albedo = ⟨0, 0, 0⟩ ∧
    (BeersLawMedium.construct s a).extinction_albedo = a ∧
    ∀ (d : K) (scatter : Bool),
      BeersLawMedium.sample exp (BeersLawMedium.construct s a) d scatter =
        ⟨exp (-a.x * d), exp (-a.y * d), exp (-a.z * d)⟩ := by
  refine ⟨rfl, ?_, ?_⟩
  · simp [BeersLawMedium.construct, Medium.construct, vec3.broadcast, vec3.add_def]
  · intro d scatter
    simp [BeersLawMedium.sample, transmittance_albedo_eq, BeersLawMedium.construct,
      Medium.construct, vec3.broadcast, vec3.add_def]

/-! ## Geometry: lemmas -/

theorem run_append (MAX_STACK_SIZE : Nat) (ops1 ops2 : List Op) :
    ∀ (s : MediumStack) (ids : IdStore) (s1 : MediumStack) (ids1 : IdStore),
      run MAX_STACK_SIZE s ids ops1 = (.ok, s1, ids1) →
      run MAX_STACK_SIZE s ids (ops1 ++ ops2) = run MAX_STACK_SIZE s1 ids1 ops2 := by
  induction ops1 with
  | nil =>
    intro s ids s1 ids1 h
    simp only [run, Prod.mk.injEq, true_and] at h
    obtain ⟨rfl, rfl⟩ := h
    rfl
  | cons op ops ih =>
    intro s ids s1 ids1 h
    simp only [run, List.cons_append] at h ⊢
    rcases hstep : step MAX_STACK_SIZE s ids op with ⟨o, s2, ids2⟩
    rw [hstep] at h
    cases o with
    | ok => simpa using ih s2 ids2 s1 ids1 (by simpa using h)
    | invalid_argument => simp at h
    | null_dereference => simp at h
    | out_of_bounds => simp at h

theorem vec3.ext_iff3 {K : Type} (a b : vec3 K) : a = b ↔ a.x = b.x ∧ a.y = b.y ∧ a.z = b.z := by
  cases a; cases b; simp

section GeometryLemmas

variable {K : Type} [LinearOrderedField K]

theorem dotVectors_div (a b : vec3 K) (k : K) :
    dotVectors a (b / k) = dotVectors a b / k := by
  simp only [dotVectors, vec3.div_def]
  ring

theorem dotVectors_ray_point (o d q w : vec3 K) (t : K) :
    dotVectors (o + d * t - q) w = dotVectors (o - q) w + dotVectors d w * t := by
  simp only [dotVectors, vec3.add_def, vec3.sub_def, vec3.scale_def]
  ring

end GeometryLemmas

section SceneLemmas

variable {K : Type} [LinearOrderedField K]

theorem Object.findClosestHit_ok (EPSILON : K) (sqrt : K → K) (uninit : Hit K) (o : Object K)
    (ray : Ray K) (ho : o ≠ Object.base) :
    ∃ h, o.findClosestHit EPSILON sqrt uninit ray = .ok h := by
  cases o with
  | base => exact absurd rfl ho
  | sphere s => exact ⟨_, rfl⟩
  | plane p => exact ⟨_, rfl⟩
  | rectangle r => exact ⟨_, rfl⟩
  | triangle t => exact ⟨_, rfl⟩

theorem Object.getNormalVector_ok (sqrt : K → K) (o : Object K) (point : vec3 K)
    (ho : o ≠ Object.base) : ∃ n, o.getNormalVector sqrt point = .ok n := by
  cases o with
  | base => exact absurd rfl ho
  | sphere s => exact ⟨_, rfl⟩
  | plane p => exact ⟨_, rfl⟩
  | rectangle r => exact ⟨_, rfl⟩
  | triangle t => exact ⟨_, rfl⟩

theorem closest_so_far_step (EPSILON : K) (sqrt : K → K) (uninit : Hit K) (ray : Ray K)
    (objects : List (Object K)) (hEPS : 0 < EPSILON) (i : Nat) (closestHit : Hit K)
    (o : Object K) (hit : Hit K) (ho : objects[i]? = some o)
    (hhit : o.findClosestHit EPSILON sqrt uninit ray = .ok hit)
    (hinv : closest_so_far EPSILON sqrt uninit ray objects i closestHit) :
    closest_so_far EPSILON sqrt uninit ray objects (i + 1)
      (if hit.distance > EPSILON ∧
          (hit.distance < closestHit.distance ∨ closestHit.distance = -1) then
        { hit with intersectedObjectIndex := (i : Int) }
      else closestHit) := by
  have hsame : ∀ o1 h1, objects[i]? = some o1 →
      o1.findClosestHit EPSILON sqrt uninit ray = .ok h1 → h1 = hit := by
    intro o1 h1 ho1 hh1
    rw [ho] at ho1
    obtain rfl := Option.some.inj ho1
    rw [hhit] at hh1
    exact (Except.ok.inj hh1).symm
  rcases hinv with ⟨hc, hnone⟩ | ⟨j, oj, hj, hji, hoj, hhj, hc, hjE, hmin⟩
  · by_cases hv : EPSILON < hit.distance
    · have hcond : hit.distance > EPSILON ∧
          (hit.distance < closestHit.distance ∨ closestHit.distance = -1) :=
        ⟨hv, Or.inr (by rw [hc])⟩
      rw [if_pos hcond]
      refine Or.inr ⟨i, o, hit, Nat.lt_succ_self i, ho, hhit, rfl, hv, ?_⟩
      intro k o1 h1 hk ho1 hh1 hE1
      rcases Nat.lt_succ_iff_lt_or_eq.mp hk with hlt | rfl
      · exact absurd hE1 (hnone k o1 h1 hlt ho1 hh1)
      · rw [hsame o1 h1 ho1 hh1]
        exact ⟨le_refl _, fun hkk => absurd hkk (Nat.lt_irrefl _)⟩
    · have hcond : ¬ (hit.distance > EPSILON ∧
          (hit.distance < closestHit.distance ∨ closestHit.distance = -1)) := fun h => hv h.1
      rw [if_neg hcond]
      refine Or.inl ⟨hc, ?_⟩
      intro k o1 h1 hk ho1 hh1
      rcases Nat.lt_succ_iff_lt_or_eq.mp hk with hlt | rfl
      · exact hnone k o1 h1 hlt ho1 hh1
      · rw [hsame o1 h1 ho1 hh1]
        exact hv
  · have hcd : closestHit.distance = hj.distance := by rw [hc]
    have hne : closestHit.distance ≠ -1 := by
      rw [hcd]
      intro h
      rw [h] at hjE
      linarith
    by_cases hv : EPSILON < hit.distance ∧ hit.distance < hj.distance
    · have hcond : hit.distance > EPSILON ∧
          (hit.distance < closestHit.distance ∨ closestHit.distance = -1) :=
        ⟨hv.1, Or.inl (by rw [hcd]; exact hv.2)⟩
      rw [if_pos hcond]
      refine Or.inr ⟨i, o, hit, Nat.lt_succ_self i, ho, hhit, rfl, hv.1, ?_⟩
      intro k o1 h1 hk ho1 hh1 hE1
      rcases Nat.lt_succ_iff_lt_or_eq.mp hk with hlt | rfl
      · have := (hmin k o1 h1 hlt ho1 hh1 hE1).1
        exact ⟨le_of_lt (lt_of_lt_of_le hv.2 this), fun _ => lt_of_lt_of_le hv.2 this⟩
      · rw [hsame o1 h1 ho1 hh1]
        exact ⟨le_refl _, fun hkk => absurd hkk (Nat.lt_irrefl _)⟩
    · have hcond : ¬ (hit.distance > EPSILON ∧
          (hit.distance < closestHit.distance ∨ closestHit.distance = -1)) := by
        rintro ⟨h1, h2 | h2⟩
        · exact hv ⟨h1, by rw [← hcd]; exact h2⟩
        · exact hne h2
      rw [if_neg hcond]
      refine Or.inr ⟨j, oj, hj, Nat.lt_succ_of_lt hji, hoj, hhj, hc, hjE, ?_⟩
      intro k o1 h1 hk ho1 hh1 hE1
      rcases Nat.lt_succ_iff_lt_or_eq.mp hk with hlt | rfl
      · exact hmin k o1 h1 hlt ho1 hh1 hE1
      · rw [hsame o1 h1 ho1 hh1] at hE1 ⊢
        refine ⟨?_, fun hkj => absurd hkj (Nat.lt_asymm hji)⟩
        by_contra hcon
        exact hv ⟨hE1, not_le.mp hcon⟩

theorem findClosestHit_loop_ok (EPSILON : K) (sqrt : K → K) (uninit : Hit K) (ray : Ray K)
    (objects : List (Object K)) (hEPS : 0 < EPSILON) (hobj : ∀ o ∈ objects, o ≠ Object.base) :
    ∀ (n i : Nat) (closestHit : Hit K), i + n = objects.length →
      closest_so_far EPSILON sqrt uninit ray objects i closestHit →
      ∃ r, findClosestHit_loop EPSILON sqrt uninit ray objects i n closestHit = .ok r ∧
        closest_so_far EPSILON sqrt uninit ray objects objects.length r := by
  intro n
  induction n with
  | zero =>
    intro i closestHit hi hinv
    have : i = objects.length := by omega
    subst this
    exact ⟨closestHit, rfl, hinv⟩
  | succ n ih =>
    intro i closestHit hi hinv
    have hlt : i < objects.length := by omega
    have ho : objects[i]? = some objects[i] := List.getElem?_eq_getElem hlt
    obtain ⟨hit, hhit⟩ := Object.findClosestHit_ok EPSILON sqrt uninit objects[i] ray
      (hobj _ (List.getElem_mem hlt))
    have hstep := closest_so_far_step EPSILON sqrt uninit ray objects hEPS i closestHit
      objects[i] hit ho hhit hinv
    obtain ⟨r, hr, hrinv⟩ := ih (i + 1) _ (by omega) hstep
    refine ⟨r, ?_, hrinv⟩
    rw [← hr]
    simp only [findClosestHit_loop, ho, hhit]
    split_ifs <;> rfl

end SceneLemmas

theorem normalizeVector_unit_x : normalizeVector Real.sqrt (⟨1, 0, 0⟩ : vec3 ℝ) = ⟨1, 0, 0⟩ := by
  simp [normalizeVector, vec3.length, vec3.length_squared, vec3.div_def]

theorem normalizeVector_unit_y : normalizeVector Real.sqrt (⟨0, 1, 0⟩ : vec3 ℝ) = ⟨0, 1, 0⟩ := by
  simp [normalizeVector, vec3.length, vec3.length_squared, vec3.div_def]

theorem normalizeVector_unit_z : normalizeVector Real.sqrt (⟨0, 0, 1⟩ : vec3 ℝ) = ⟨0, 0, 1⟩ := by
  simp [normalizeVector, vec3.length, vec3.length_squared, vec3.div_def]

theorem unit_square_fields :
    Rectangle.construct Real.sqrt ⟨0, 0, 0⟩ ⟨1, 0, 0⟩ ⟨0, 1, 0⟩ 2 2 =
      ⟨⟨⟨0, 0, 0⟩, ⟨1, 0, 0⟩, ⟨0, 1, 0⟩, ⟨0, 0, 1⟩⟩, 2, 2⟩ := by
  simp [Rectangle.construct, Plane.construct, normalizeVector_unit_x, normalizeVector_unit_y,
    crossVectors, normalizeVector_unit_z]

theorem unit_triangle_fields :
    Triangle.construct Real.sqrt ⟨0, 0, 0⟩ ⟨1, 0, 0⟩ ⟨0, 1, 0⟩ =
      { position := ⟨0, 0, 0⟩, normalVector := ⟨0, 0, 1⟩, p1 := ⟨0, 0, 0⟩, p2 := ⟨1, 0, 0⟩,
        p3 := ⟨0, 1, 0⟩, v1 := ⟨1, 0, 0⟩, v2 := ⟨0, 1, 0⟩, x1 := 0, y1 := 0, x2 := 1, y2 := 0,
        x3 := 0, y3 := 1, detT := 1, uv1 := ⟨0, 0, 0⟩, uv2 := ⟨1, 0, 0⟩, uv3 := ⟨0, 1, 0⟩ } := by
  simp [Triangle.construct, vec3.sub_def, normalizeVector_unit_x, normalizeVector_unit_y,
    crossVectors, normalizeVector_unit_z, dotVectors]

theorem solveQuadratic_roots (b c t : ℝ) (hd : 0 ≤ b * b - 4 * c) (ht : t * t + b * t + c = 0) :
    t = (-b - Real.sqrt (b * b - 4 * c)) / 2 ∨ t = (-b + Real.sqrt (b * b - 4 * c)) / 2 := by
  have hr : Real.sqrt (b * b - 4 * c) * Real.sqrt (b * b - 4 * c) = b * b - 4 * c :=
    Real.mul_self_sqrt hd
  have hprod : (2 * t + b + Real.sqrt (b * b - 4 * c)) *
      (2 * t + b - Real.sqrt (b * b - 4 * c)) = 0 := by
    linear_combination 4 * ht - hr
  rcases mul_eq_zero.mp hprod with h | h
  · left; linarith
  · right; linarith

theorem solveQuadratic_is_root (b c : ℝ) (hd : 0 ≤ b * b - 4 * c) :
    ((-b - Real.sqrt (b * b - 4 * c)) / 2) * ((-b - Real.sqrt (b * b - 4 * c)) / 2) +
        b * ((-b - Real.sqrt (b * b - 4 * c)) / 2) + c = 0 ∧
    ((-b + Real.sqrt (b * b - 4 * c)) / 2) * ((-b + Real.sqrt (b * b - 4 * c)) / 2) +
        b * ((-b + Real.sqrt (b * b - 4 * c)) / 2) + c = 0 := by
  have hr : Real.sqrt (b * b - 4 * c) * Real.sqrt (b * b - 4 * c) = b * b - 4 * c :=
    Real.mul_self_sqrt hd
  constructor
  · linear_combination (1 / 4) * hr
  · linear_combination (1 / 4) * hr

theorem solveQuadratic_least_positive (b c : ℝ) :
    (∀ t, 0 < t → t * t + b * t + c = 0 →
      0 < solveQuadratic Real.sqrt b c ∧
      solveQuadratic Real.sqrt b c * solveQuadratic Real.sqrt b c +
        b * solveQuadratic Real.sqrt b c + c = 0 ∧
      solveQuadratic Real.sqrt b c ≤ t) ∧
    ((∀ t, 0 < t → t * t + b * t + c ≠ 0) → solveQuadratic Real.sqrt b c = -1) := by
  have hsq := Real.sqrt_nonneg (b * b - 4 * c)
  by_cases hd : b * b - 4 * c < 0
  · constructor
    · intro t _ ht
      nlinarith [mul_self_nonneg (2 * t + b)]
    · intro _
      simp [solveQuadratic, hd]
  · have hd0 : 0 ≤ b * b - 4 * c := not_lt.mp hd
    obtain ⟨hroot1, hroot2⟩ := solveQuadratic_is_root b c hd0
    by_cases h1 : 0 < (-b - Real.sqrt (b * b - 4 * c)) / 2
    · have hval : solveQuadratic Real.sqrt b c = (-b - Real.sqrt (b * b - 4 * c)) / 2 := by
        simp only [solveQuadratic, hd, if_false, h1, if_true]
      rw [hval]
      constructor
      · intro t _ ht
        refine ⟨h1, hroot1, ?_⟩
        rcases solveQuadratic_roots b c t hd0 ht with h | h
        · exact h.ge
        · rw [h]; linarith
      · intro hno
        exact absurd hroot1 (hno _ h1)
    · by_cases h2 : 0 < (-b + Real.sqrt (b * b - 4 * c)) / 2
      · have hval : solveQuadratic Real.sqrt b c = (-b + Real.sqrt (b * b - 4 * c)) / 2 := by
          simp only [solveQuadratic, hd, if_false, h1, h2, if_true]
        rw [hval]
        constructor
        · intro t htpos ht
          refine ⟨h2, hroot2, ?_⟩
          rcases solveQuadratic_roots b c t hd0 ht with h | h
          · exact absurd (h ▸ htpos) h1
          · exact h.ge
        · intro hno
          exact absurd hroot2 (hno _ h2)
      · have hval : solveQuadratic Real.sqrt b c = -1 := by
          simp only [solveQuadratic, hd, if_false, h1, h2]
        rw [hval]
        constructor
        · intro t htpos ht
          rcases solveQuadratic_roots b c t hd0 ht with h | h
          · exact absurd (h ▸ htpos) h1
          · exact absurd (h ▸ htpos) h2
        · intro _; rfl

theorem sphere_equation (c o d : vec3 ℝ) (r t : ℝ) (hunit : d.length_squared = 1) :
    (o + d * t - c).length_squared = r * r ↔
      t * t + (2 * (dotVectors d o - dotVectors d c)) * t + ((c - o).length_squared - r * r)
        = 0 := by
  simp only [vec3.length_squared, dotVectors, vec3.add_def, vec3.sub_def, vec3.scale_def]
    at hunit ⊢
  constructor
  · intro h
    linear_combination h - (t * t) * hunit
  · intro h
    linear_combination h + (t * t) * hunit

section FrameLemmas

theorem length_squared_nonneg (v : vec3 ℝ) : 0 ≤ v.length_squared := by
  simp only [vec3.length_squared]
  nlinarith [mul_self_nonneg v.x, mul_self_nonneg v.y, mul_self_nonneg v.z]

theorem length_squared_pos_of_ne (v : vec3 ℝ) (h : v ≠ ⟨0, 0, 0⟩) : 0 < v.length_squared := by
  rcases lt_or_eq_of_le (length_squared_nonneg v) with hpos | hzero
  · exact hpos
  · exfalso
    apply h
    simp only [vec3.length_squared] at hzero
    have hx : v.x = 0 := by nlinarith [mul_self_nonneg v.x, mul_self_nonneg v.y, mul_self_nonneg v.z]
    have hy : v.y = 0 := by nlinarith [mul_self_nonneg v.x, mul_self_nonneg v.y, mul_self_nonneg v.z]
    have hz : v.z = 0 := by nlinarith [mul_self_nonneg v.x, mul_self_nonneg v.y, mul_self_nonneg v.z]
    exact (vec3.ext_iff3 _ _).mpr ⟨hx, hy, hz⟩

theorem length_pos (v : vec3 ℝ) (h : 0 < v.length_squared) :
    0 < v.length Real.sqrt ∧ v.length Real.sqrt * v.length Real.sqrt = v.length_squared :=
  ⟨Real.sqrt_pos.mpr h, Real.mul_self_sqrt h.le⟩

theorem normalizeVector_unit (v : vec3 ℝ) (h : 0 < v.length_squared) :
    dotVectors (normalizeVector Real.sqrt v) (normalizeVector Real.sqrt v) = 1 := by
  obtain ⟨hL, hLL⟩ := length_pos v h
  simp only [normalizeVector, dotVectors, vec3.div_def]
  generalize v.length Real.sqrt = L at hL hLL
  have hL0 : L ≠ 0 := hL.ne'
  simp only [vec3.length_squared] at hLL
  field_simp
  linear_combination -hLL

theorem normalizeVector_of_unit (v : vec3 ℝ) (h : v.length_squared = 1) :
    normalizeVector Real.sqrt v = v := by
  simp [normalizeVector, vec3.length, h, vec3.div_def]

theorem length_squared_cross (a b : vec3 ℝ) :
    (crossVectors a b).length_squared =
      dotVectors a a * dotVectors b b - dotVectors a b * dotVectors a b := by
  simp only [vec3.length_squared, crossVectors, dotVectors]
  ring

theorem dotVectors_cross_scaled (q u w : vec3 ℝ) (a b l : ℝ) :
    dotVectors q (crossVectors (u / a) (w / b) / l) =
      dotVectors q (crossVectors u w) / (a * b * l) := by
  simp only [dotVectors, crossVectors, vec3.div_def]
  ring

theorem length_squared_cross_scaled (u w : vec3 ℝ) (a b : ℝ) :
    (crossVectors (u / a) (w / b)).length_squared =
      (crossVectors u w).length_squared / (a * a * (b * b)) := by
  simp only [vec3.length_squared, crossVectors, vec3.div_def]
  ring

theorem dotVectors_comm (a b : vec3 ℝ) : dotVectors a b = dotVectors b a := by
  simp only [dotVectors]
  ring

theorem dotVectors_cross_self (a b : vec3 ℝ) :
    dotVectors a (crossVectors a b) = 0 ∧ dotVectors b (crossVectors a b) = 0 := by
  simp only [dotVectors, crossVectors]
  constructor <;> ring

theorem dotVectors_self_eq (v : vec3 ℝ) : dotVectors v v = v.length_squared := rfl

end FrameLemmas

theorem dotVectors_div_left (a b : vec3 ℝ) (k : ℝ) :
    dotVectors (a / k) b = dotVectors a b / k := by
  simp only [dotVectors, vec3.div_def]
  ring

theorem triangle_frame (p1 p2 p3 : vec3 ℝ)
    (hnd : crossVectors (p2 - p1) (p3 - p1) ≠ ⟨0, 0, 0⟩) :
    dotVectors (Triangle.construct Real.sqrt p1 p2 p3).v1
      (Triangle.construct Real.sqrt p1 p2 p3).v1 = 1 ∧
    dotVectors (Triangle.construct Real.sqrt p1 p2 p3).normalVector
      (Triangle.construct Real.sqrt p1 p2 p3).normalVector = 1 ∧
    dotVectors (Triangle.construct Real.sqrt p1 p2 p3).normalVector
      (Triangle.construct Real.sqrt p1 p2 p3).v1 = 0 ∧
    (Triangle.construct Real.sqrt p1 p2 p3).v2 =
      crossVectors (Triangle.construct Real.sqrt p1 p2 p3).normalVector
        (Triangle.construct Real.sqrt p1 p2 p3).v1 ∧
    ∃ κ : ℝ, 0 < κ ∧ ∀ q : vec3 ℝ,
      dotVectors q (Triangle.construct Real.sqrt p1 p2 p3).normalVector =
        dotVectors q (crossVectors (p2 - p1) (p3 - p1)) / κ := by
  have hX : 0 < (crossVectors (p2 - p1) (p3 - p1)).length_squared :=
    length_squared_pos_of_ne _ hnd
  have hlag := length_squared_cross (p2 - p1) (p3 - p1)
  have hu : 0 < (p2 - p1).length_squared := by
    rcases lt_or_eq_of_le (length_squared_nonneg (p2 - p1)) with h | h
    · exact h
    · exfalso
      rw [dotVectors_self_eq, ← h] at hlag
      nlinarith [mul_self_nonneg (dotVectors (p2 - p1) (p3 - p1))]
  have hw : 0 < (p3 - p1).length_squared := by
    rcases lt_or_eq_of_le (length_squared_nonneg (p3 - p1)) with h | h
    · exact h
    · exfalso
      rw [dotVectors_self_eq (p3 - p1), ← h] at hlag
      nlinarith [mul_self_nonneg (dotVectors (p2 - p1) (p3 - p1))]
  obtain ⟨hLu, hLuu⟩ := length_pos _ hu
  obtain ⟨hLw, hLww⟩ := length_pos _ hw
  have hN : 0 < (crossVectors (normalizeVector Real.sqrt (p2 - p1))
      (normalizeVector Real.sqrt (p3 - p1))).length_squared := by
    simp only [normalizeVector]
    rw [length_squared_cross_scaled]
    exact div_pos hX (mul_pos (mul_pos hLu hLu) (mul_pos hLw hLw))
  obtain ⟨hLN, -⟩ := length_pos _ hN
  have hv1 : dotVectors (normalizeVector Real.sqrt (p2 - p1))
      (normalizeVector Real.sqrt (p2 - p1)) = 1 := normalizeVector_unit _ hu
  have hn : dotVectors
      (normalizeVector Real.sqrt (crossVectors (normalizeVector Real.sqrt (p2 - p1))
        (normalizeVector Real.sqrt (p3 - p1))))
      (normalizeVector Real.sqrt (crossVectors (normalizeVector Real.sqrt (p2 - p1))
        (normalizeVector Real.sqrt (p3 - p1)))) = 1 := normalizeVector_unit _ hN
  have hq : ∀ q : vec3 ℝ,
      dotVectors q (normalizeVector Real.sqrt (crossVectors (normalizeVector Real.sqrt (p2 - p1))
        (normalizeVector Real.sqrt (p3 - p1)))) =
      dotVectors q (crossVectors (p2 - p1) (p3 - p1)) /
        ((p2 - p1).length Real.sqrt * (p3 - p1).length Real.sqrt *
          (crossVectors (normalizeVector Real.sqrt (p2 - p1))
            (normalizeVector Real.sqrt (p3 - p1))).length Real.sqrt) := by
    intro q
    exact dotVectors_cross_scaled q (p2 - p1) (p3 - p1) _ _ _
  have hnv1 : dotVectors
      (normalizeVector Real.sqrt (crossVectors (normalizeVector Real.sqrt (p2 - p1))
        (normalizeVector Real.sqrt (p3 - p1))))
      (normalizeVector Real.sqrt (p2 - p1)) = 0 := by
    rw [dotVectors_comm, hq]
    have : dotVectors (normalizeVector Real.sqrt (p2 - p1)) (crossVectors (p2 - p1) (p3 - p1))
        = 0 := by
      show dotVectors ((p2 - p1) / (p2 - p1).length Real.sqrt) _ = 0
      rw [dotVectors_div_left, (dotVectors_cross_self (p2 - p1) (p3 - p1)).1, zero_div]
    rw [this, zero_div]
  have hM : (crossVectors
      (normalizeVector Real.sqrt (crossVectors (normalizeVector Real.sqrt (p2 - p1))
        (normalizeVector Real.sqrt (p3 - p1))))
      (normalizeVector Real.sqrt (p2 - p1))).length_squared = 1 := by
    rw [length_squared_cross, hn, hv1, hnv1]
    norm_num
  refine ⟨hv1, hn, hnv1, normalizeVector_of_unit _ hM, _,
    mul_pos (mul_pos hLu hLw) hLN, hq⟩

theorem detT_identity (p1 p2 p3 v1 n : vec3 ℝ) :
    (dotVectors p2 (crossVectors n v1) - dotVectors p3 (crossVectors n v1)) *
        (dotVectors p1 v1 - dotVectors p3 v1) +
      (dotVectors p3 v1 - dotVectors p2 v1) *
        (dotVectors p1 (crossVectors n v1) - dotVectors p3 (crossVectors n v1)) =
    dotVectors (crossVectors (p2 - p1) (p3 - p1)) n * dotVectors v1 v1 -
      dotVectors (crossVectors (p2 - p1) (p3 - p1)) v1 * dotVectors n v1 := by
  simp only [dotVectors, crossVectors, vec3.sub_def]
  ring

theorem triangle_detT_pos (p1 p2 p3 : vec3 ℝ)
    (hnd : crossVectors (p2 - p1) (p3 - p1) ≠ ⟨0, 0, 0⟩) :
    0 < (Triangle.construct Real.sqrt p1 p2 p3).detT := by
  obtain ⟨hv1, -, hnv1, hv2, κ, hκ, hq⟩ := triangle_frame p1 p2 p3 hnd
  have hX : 0 < (crossVectors (p2 - p1) (p3 - p1)).length_squared :=
    length_squared_pos_of_ne _ hnd
  have hdet : (Triangle.construct Real.sqrt p1 p2 p3).detT =
      (dotVectors p2 (Triangle.construct Real.sqrt p1 p2 p3).v2 -
          dotVectors p3 (Triangle.construct Real.sqrt p1 p2 p3).v2) *
        (dotVectors p1 (Triangle.construct Real.sqrt p1 p2 p3).v1 -
          dotVectors p3 (Triangle.construct Real.sqrt p1 p2 p3).v1) +
      (dotVectors p3 (Triangle.construct Real.sqrt p1 p2 p3).v1 -
          dotVectors p2 (Triangle.construct Real.sqrt p1 p2 p3).v1) *
        (dotVectors p1 (Triangle.construct Real.sqrt p1 p2 p3).v2 -
          dotVectors p3 (Triangle.construct Real.sqrt p1 p2 p3).v2) := rfl
  rw [hdet, hv2, detT_identity, hv1, hnv1, hq, dotVectors_self_eq]
  simp only [mul_one, mul_zero, sub_zero]
  exact div_pos hX hκ

theorem barycentric_of_combination (T : Triangle ℝ) (a b c : ℝ) (habc : a + b + c = 1)
    (hdet : T.detT ≠ 0)
    (hdetT : T.detT = (T.y2 - T.y3) * (T.x1 - T.x3) + (T.x3 - T.x2) * (T.y1 - T.y3))
    (hx1 : T.x1 = dotVectors T.p1 T.v1) (hy1 : T.y1 = dotVectors T.p1 T.v2)
    (hx2 : T.x2 = dotVectors T.p2 T.v1) (hy2 : T.y2 = dotVectors T.p2 T.v2)
    (hx3 : T.x3 = dotVectors T.p3 T.v1) (hy3 : T.y3 = dotVectors T.p3 T.v2) :
    T.computeBarycentric (T.p1 * a + T.p2 * b + T.p3 * c) = ⟨a, b, c⟩ := by
  have hx : dotVectors (T.p1 * a + T.p2 * b + T.p3 * c) T.v1 = a * T.x1 + b * T.x2 + c * T.x3 := by
    rw [hx1, hx2, hx3]
    simp only [dotVectors, vec3.add_def, vec3.scale_def]
    ring
  have hy : dotVectors (T.p1 * a + T.p2 * b + T.p3 * c) T.v2 = a * T.y1 + b * T.y2 + c * T.y3 := by
    rw [hy1, hy2, hy3]
    simp only [dotVectors, vec3.add_def, vec3.scale_def]
    ring
  have hc : c = 1 - a - b := by linarith
  have h1 : ((T.y2 - T.y3) * (a * T.x1 + b * T.x2 + c * T.x3 - T.x3) +
      (T.x3 - T.x2) * (a * T.y1 + b * T.y2 + c * T.y3 - T.y3)) / T.detT = a := by
    rw [div_eq_iff hdet, hc]
    rw [hdetT]
    ring
  have h2 : ((T.y3 - T.y1) * (a * T.x1 + b * T.x2 + c * T.x3 - T.x3) +
      (T.x1 - T.x3) * (a * T.y1 + b * T.y2 + c * T.y3 - T.y3)) / T.detT = b := by
    rw [div_eq_iff hdet, hc]
    rw [hdetT]
    ring
  simp only [Triangle.computeBarycentric, hx, hy, h1, h2]
  rw [vec3.ext_iff3]
  refine ⟨rfl, rfl, ?_⟩
  show 1 - a - b = c
  linarith

theorem frame_complete (n v1 q : vec3 ℝ) (hn : dotVectors n n = 1) (hv1 : dotVectors v1 v1 = 1)
    (hnv1 : dotVectors n v1 = 0) (h1 : dotVectors q v1 = 0)
    (h2 : dotVectors q (crossVectors n v1) = 0) (h3 : dotVectors q n = 0) :
    q = ⟨0, 0, 0⟩ := by
  have key : ∀ i : Fin 3,
      (dotVectors n n * dotVectors v1 v1 - dotVectors n v1 * dotVectors n v1) * q.get i =
        dotVectors q (crossVectors n v1) * (crossVectors n v1).get i +
        (dotVectors q n * dotVectors v1 v1 - dotVectors q v1 * dotVectors n v1) * n.get i +
        (dotVectors q v1 * dotVectors n n - dotVectors q n * dotVectors n v1) * v1.get i := by
    intro i
    fin_cases i <;> simp only [vec3.get, dotVectors, crossVectors] <;> ring
  rw [vec3.ext_iff3]
  have k0 := key 0
  have k1 := key 1
  have k2 := key 2
  simp only [vec3.get] at k0 k1 k2
  rw [hn, hv1, hnv1, h1, h2, h3] at k0 k1 k2
  refine ⟨?_, ?_, ?_⟩
  · show q.x = 0
    linear_combination k0
  · show q.y = 0
    linear_combination k1
  · show q.z = 0
    linear_combination k2

theorem barycentric_2d (x1 y1 x2 y2 x3 y3 x y detT : ℝ) (hdet : detT ≠ 0)
    (hdetT : detT = (y2 - y3) * (x1 - x3) + (x3 - x2) * (y1 - y3)) :
    ((y2 - y3) * (x - x3) + (x3 - x2) * (y - y3)) / detT * x1 +
      ((y3 - y1) * (x - x3) + (x1 - x3) * (y - y3)) / detT * x2 +
      (1 - ((y2 - y3) * (x - x3) + (x3 - x2) * (y - y3)) / detT -
        ((y3 - y1) * (x - x3) + (x1 - x3) * (y - y3)) / detT) * x3 = x ∧
    ((y2 - y3) * (x - x3) + (x3 - x2) * (y - y3)) / detT * y1 +
      ((y3 - y1) * (x - x3) + (x1 - x3) * (y - y3)) / detT * y2 +
      (1 - ((y2 - y3) * (x - x3) + (x3 - x2) * (y - y3)) / detT -
        ((y3 - y1) * (x - x3) + (x1 - x3) * (y - y3)) / detT) * y3 = y := by
  constructor
  · field_simp
    rw [hdetT]
    ring
  · field_simp
    rw [hdetT]
    ring

theorem triangle_in_plane_point (p1 p2 p3 P : vec3 ℝ)
    (hnd : crossVectors (p2 - p1) (p3 - p1) ≠ ⟨0, 0, 0⟩)
    (hplane : dotVectors (P - p1) (Triangle.construct Real.sqrt p1 p2 p3).normalVector = 0) :
    P = p1 * ((Triangle.construct Real.sqrt p1 p2 p3).computeBarycentric P).x +
        p2 * ((Triangle.construct Real.sqrt p1 p2 p3).computeBarycentric P).y +
        p3 * ((Triangle.construct Real.sqrt p1 p2 p3).computeBarycentric P).z ∧
    ((Triangle.construct Real.sqrt p1 p2 p3).computeBarycentric P).x +
      ((Triangle.construct Real.sqrt p1 p2 p3).computeBarycentric P).y +
      ((Triangle.construct Real.sqrt p1 p2 p3).computeBarycentric P).z = 1 := by
  obtain ⟨hv1, hn, hnv1, hv2, κ, hκ, hq⟩ := triangle_frame p1 p2 p3 hnd
  have hdet : (Triangle.construct Real.sqrt p1 p2 p3).detT ≠ 0 :=
    (triangle_detT_pos p1 p2 p3 hnd).ne'
  obtain ⟨hx, hy⟩ := barycentric_2d
    (dotVectors p1 (Triangle.construct Real.sqrt p1 p2 p3).v1)
    (dotVectors p1 (Triangle.construct Real.sqrt p1 p2 p3).v2)
    (dotVectors p2 (Triangle.construct Real.sqrt p1 p2 p3).v1)
    (dotVectors p2 (Triangle.construct Real.sqrt p1 p2 p3).v2)
    (dotVectors p3 (Triangle.construct Real.sqrt p1 p2 p3).v1)
    (dotVectors p3 (Triangle.construct Real.sqrt p1 p2 p3).v2)
    (dotVectors P (Triangle.construct Real.sqrt p1 p2 p3).v1)
    (dotVectors P (Triangle.construct Real.sqrt p1 p2 p3).v2)
    (Triangle.construct Real.sqrt p1 p2 p3).detT hdet rfl
  have hsum : ((Triangle.construct Real.sqrt p1 p2 p3).computeBarycentric P).x +
      ((Triangle.construct Real.sqrt p1 p2 p3).computeBarycentric P).y +
      ((Triangle.construct Real.sqrt p1 p2 p3).computeBarycentric P).z = 1 := by
    simp only [Triangle.computeBarycentric]
    ring
  refine ⟨?_, hsum⟩
  have hu : dotVectors (p2 - p1) (Triangle.construct Real.sqrt p1 p2 p3).normalVector = 0 := by
    rw [hq, (dotVectors_cross_self (p2 - p1) (p3 - p1)).1, zero_div]
  have hw : dotVectors (p3 - p1) (Triangle.construct Real.sqrt p1 p2 p3).normalVector = 0 := by
    rw [hq, (dotVectors_cross_self (p2 - p1) (p3 - p1)).2, zero_div]
  generalize hl : (Triangle.construct Real.sqrt p1 p2 p3).computeBarycentric P = l at hsum ⊢
  have hlx : l.x * dotVectors p1 (Triangle.construct Real.sqrt p1 p2 p3).v1 +
      l.y * dotVectors p2 (Triangle.construct Real.sqrt p1 p2 p3).v1 +
      l.z * dotVectors p3 (Triangle.construct Real.sqrt p1 p2 p3).v1 =
      dotVectors P (Triangle.construct Real.sqrt p1 p2 p3).v1 := by
    rw [← hl]
    exact hx
  have hly : l.x * dotVectors p1 (Triangle.construct Real.sqrt p1 p2 p3).v2 +
      l.y * dotVectors p2 (Triangle.construct Real.sqrt p1 p2 p3).v2 +
      l.z * dotVectors p3 (Triangle.construct Real.sqrt p1 p2 p3).v2 =
      dotVectors P (Triangle.construct Real.sqrt p1 p2 p3).v2 := by
    rw [← hl]
    exact hy
  generalize (Triangle.construct Real.sqrt p1 p2 p3).v1 = v1 at *
  generalize (Triangle.construct Real.sqrt p1 p2 p3).v2 = v2 at *
  generalize (Triangle.construct Real.sqrt p1 p2 p3).normalVector = n at *
  have hD : P - (p1 * l.x + p2 * l.y + p3 * l.z) = ⟨0, 0, 0⟩ := by
    apply frame_complete n v1 _ hn hv1 hnv1
    · simp only [dotVectors, vec3.add_def, vec3.sub_def, vec3.scale_def] at hlx ⊢
      linear_combination -hlx
    · rw [← hv2]
      simp only [dotVectors, vec3.add_def, vec3.sub_def, vec3.scale_def] at hly ⊢
      linear_combination -hly
    · simp only [dotVectors, vec3.add_def, vec3.sub_def, vec3.scale_def] at hplane hu hw hsum ⊢
      linear_combination hplane - l.y * hu - l.z * hw -
        (p1.x * n.x + p1.y * n.y + p1.z * n.z) * hsum
  rw [vec3.ext_iff3] at hD ⊢
  simp only [vec3.add_def, vec3.sub_def, vec3.scale_def] at hD ⊢
  refine ⟨?_, ?_, ?_⟩ <;> linarith [hD.1, hD.2.1, hD.2.2]

theorem triangle_hit_cases (EPSILON : ℝ) (p1 p2 p3 : vec3 ℝ) (ray : Ray ℝ) (uninit : Hit ℝ)
    (hEPS : 0 < EPSILON) (hnd : crossVectors (p2 - p1) (p3 - p1) ≠ ⟨0, 0, 0⟩) :
    ((Triangle.construct Real.sqrt p1 p2 p3).findClosestHit EPSILON ray uninit).distance = -1 ∨
    (0 ≤ ((Triangle.construct Real.sqrt p1 p2 p3).findClosestHit EPSILON ray uninit).distance ∧
      dotVectors ray.direction_vector
        (Triangle.construct Real.sqrt p1 p2 p3).normalVector ≠ 0 ∧
      dotVectors (ray.starting_position + ray.direction_vector *
          ((Triangle.construct Real.sqrt p1 p2 p3).findClosestHit EPSILON ray uninit).distance
            - p1)
        (Triangle.construct Real.sqrt p1 p2 p3).normalVector = 0 ∧
      in_triangle p1 p2 p3 (ray.starting_position + ray.direction_vector *
        ((Triangle.construct Real.sqrt p1 p2 p3).findClosestHit EPSILON ray uninit).distance)) := by
  by_cases hpar : |-dotVectors ray.direction_vector
      (Triangle.construct Real.sqrt p1 p2 p3).normalVector| < EPSILON
  · left
    simp only [Triangle.findClosestHit, hpar, if_true]
  · have hdn : dotVectors ray.direction_vector
        (Triangle.construct Real.sqrt p1 p2 p3).normalVector ≠ 0 := by
      intro h0
      apply hpar
      rw [h0, neg_zero, abs_zero]
      exact hEPS
    by_cases hneg : dotVectors (ray.starting_position - p1)
        (Triangle.construct Real.sqrt p1 p2 p3).normalVector /
        -dotVectors ray.direction_vector
          (Triangle.construct Real.sqrt p1 p2 p3).normalVector < 0
    · left
      have hpos : (Triangle.construct Real.sqrt p1 p2 p3).position = p1 := rfl
      simp only [Triangle.findClosestHit, hpar, if_false, hpos, hneg, if_true]
    · have hpos : (Triangle.construct Real.sqrt p1 p2 p3).position = p1 := rfl
      have hplane : dotVectors (ray.starting_position + ray.direction_vector *
          (dotVectors (ray.starting_position - p1)
            (Triangle.construct Real.sqrt p1 p2 p3).normalVector /
            -dotVectors ray.direction_vector
              (Triangle.construct Real.sqrt p1 p2 p3).normalVector) - p1)
          (Triangle.construct Real.sqrt p1 p2 p3).normalVector = 0 := by
        rw [dotVectors_ray_point]
        generalize dotVectors (ray.starting_position - p1)
          (Triangle.construct Real.sqrt p1 p2 p3).normalVector = A
        generalize dotVectors ray.direction_vector
          (Triangle.construct Real.sqrt p1 p2 p3).normalVector = D at hdn
        have hD : D * (A / -D) = -A := by
          rw [div_neg, mul_neg, mul_div_assoc', mul_comm, mul_div_assoc, div_self hdn, mul_one]
        linear_combination hD
      obtain ⟨hP, hsum⟩ := triangle_in_plane_point p1 p2 p3 _ hnd hplane
      by_cases hout :
          ((Triangle.construct Real.sqrt p1 p2 p3).computeBarycentric
            (ray.starting_position + ray.direction_vector *
              (dotVectors (ray.starting_position - p1)
                (Triangle.construct Real.sqrt p1 p2 p3).normalVector /
                -dotVectors ray.direction_vector
                  (Triangle.construct Real.sqrt p1 p2 p3).normalVector))).get 0 < 0 ∨
          ((Triangle.construct Real.sqrt p1 p2 p3).computeBarycentric
            (ray.starting_position + ray.direction_vector *
              (dotVectors (ray.starting_position - p1)
                (Triangle.construct Real.sqrt p1 p2 p3).normalVector /
                -dotVectors ray.direction_vector
                  (Triangle.construct Real.sqrt p1 p2 p3).normalVector))).get 1 < 0 ∨
          ((Triangle.construct Real.sqrt p1 p2 p3).computeBarycentric
            (ray.starting_position + ray.direction_vector *
              (dotVectors (ray.starting_position - p1)
                (Triangle.construct Real.sqrt p1 p2 p3).normalVector /
                -dotVectors ray.direction_vector
                  (Triangle.construct Real.sqrt p1 p2 p3).normalVector))).get 2 < 0
      · left
        simp only [Triangle.findClosestHit, hpar, if_false, hpos, hneg, hout, if_true]
      · right
        have hval : ((Triangle.construct Real.sqrt p1 p2 p3).findClosestHit EPSILON ray
            uninit).distance =
            dotVectors (ray.starting_position - p1)
              (Triangle.construct Real.sqrt p1 p2 p3).normalVector /
              -dotVectors ray.direction_vector
                (Triangle.construct Real.sqrt p1 p2 p3).normalVector := by
          simp only [Triangle.findClosestHit, hpar, if_false, hpos, hneg, hout]
        rw [hval]
        rw [not_or, not_or] at hout
        exact ⟨not_lt.mp hneg, hdn, hplane, _, _, _, not_lt.mp hout.1, not_lt.mp hout.2.1,
          not_lt.mp hout.2.2, hsum, hP⟩

/-- Whatever positive value `EPSILON` has, the rectangle centred at the origin with axes
(1,0,0), (0,1,0), normal (0,0,1) and sides 2, 2 reports no hit for the ray from
(0, 0, EPSILON/2) in direction (1, 0, -EPSILON/2), which is not parallel to its plane and
meets it at `t = 1` in the point (1,0,0). -/
theorem near_parallel_rejected_for_every_epsilon {K : Type} [LinearOrderedField K]
    (EPSILON : K) (hEPS : 0 < EPSILON) (uninit : Hit K) :
    dotVectors (⟨1, 0, -(EPSILON / 2)⟩ : vec3 K) ⟨0, 0, 1⟩ ≠ 0 ∧
    (⟨0, 0, EPSILON / 2⟩ : vec3 K) + (⟨1, 0, -(EPSILON / 2)⟩ : vec3 K) * (1 : K) = ⟨1, 0, 0⟩ ∧
    (Rectangle.findClosestHit EPSILON
      ⟨⟨⟨0, 0, 0⟩, ⟨1, 0, 0⟩, ⟨0, 1, 0⟩, ⟨0, 0, 1⟩⟩, 2, 2⟩
      ⟨⟨0, 0, EPSILON / 2⟩, ⟨1, 0, -(EPSILON / 2)⟩⟩ uninit).distance = -1 := by
  have h2 : 0 < EPSILON / 2 := by linarith
  refine ⟨?_, ?_, ?_⟩
  · simp only [dotVectors]
    intro h
    linarith
  · simp [vec3.add_def, vec3.scale_def]
  · have habs : |dotVectors (⟨1, 0, -(EPSILON / 2)⟩ : vec3 K) ⟨0, 0, 1⟩| < EPSILON := by
      simp only [dotVectors]
      rw [abs_lt]
      constructor <;> linarith
    simp only [Rectangle.findClosestHit, Plane.computeDistanceInCenteredSystem, abs_neg, habs,
      if_true]
    norm_num

/-! ## Geometry and medium stack: further claims

Where a claim needs the square root, the scalars are the real numbers and `sqrt` is
`Real.sqrt`; `EPSILON` is any positive number. -/

/-- Claim C11, as stated, fails on the code: on a list whose only element is an instance of
the base class `Object` the scene query ends in the `VirtualMethodNotAllowedException` that
the placeholder `Object::findClosestHit` throws. -/
theorem scene_query_raises_on_base_object :
    findClosestHit (1 / 1000000 : ℚ) (fun x => x) (blank_hit ℚ)
      (down_ray ℚ) [Object.base] 1
      = .error .VirtualMethodNotAllowedException := by
  simp [findClosestHit, findClosestHit_loop, Object.findClosestHit]

/-- Claim C11, amended: for every ray and every list of objects none of which is an instance
of the base class `Object` (each is a sphere, plane, rectangle or triangle), the scene query
over the whole list returns normally. If no object's own distance is above `EPSILON` the
result has distance -1. Otherwise its distance is that of the object at some index `j`, it is
above `EPSILON`, no object's distance above `EPSILON` is smaller, every such distance at an
index before `j` is strictly larger, `intersectedObjectIndex` is `j`, the intersection point is
origin + direction * distance, the normal is that object's normal at that point and the
incoming vector is the ray direction. -/
theorem scene_query_returns_closest {K : Type} [LinearOrderedField K] (EPSILON : K)
    (sqrt : K → K) (uninit : Hit K) (ray : Ray K) (objects : List (Object K))
    (hEPS : 0 < EPSILON) (hobj : ∀ o ∈ objects, o ≠ Object.base) :
    ∃ r, findClosestHit EPSILON sqrt uninit ray objects objects.length = .ok r ∧
      ((∀ o ∈ objects, ∀ h, o.findClosestHit EPSILON sqrt uninit ray = .ok h →
          ¬ EPSILON < h.distance) → r.distance = -1) ∧
      ((∃ o ∈ objects, ∃ h, o.findClosestHit EPSILON sqrt uninit ray = .ok h ∧
          EPSILON < h.distance) →
        ∃ (j : Nat) (o : Object K) (h : Hit K), objects[j]? = some o ∧
          o.findClosestHit EPSILON sqrt uninit ray = .ok h ∧
          EPSILON < h.distance ∧ r.distance = h.distance ∧
          r.intersectedObjectIndex = (j : Int) ∧
          (∀ (k : Nat) (o1 : Object K) (h1 : Hit K), objects[k]? = some o1 →
            o1.findClosestHit EPSILON sqrt uninit ray = .ok h1 → EPSILON < h1.distance →
            r.distance ≤ h1.distance ∧ (k < j → r.distance < h1.distance)) ∧
          r.intersectionPoint = ray.starting_position + ray.direction_vector * r.distance ∧
          o.getNormalVector sqrt r.intersectionPoint = .ok r.normalVector ∧
          r.incomingVector = ray.direction_vector) := by
  obtain ⟨c, hloop, hinv⟩ := findClosestHit_loop_ok EPSILON sqrt uninit ray objects hEPS hobj
    objects.length 0 { uninit with distance := -1 } (by omega)
    (Or.inl ⟨rfl, fun k o h hk => absurd hk (Nat.not_lt_zero k)⟩)
  rcases hinv with ⟨hc, hnone⟩ | ⟨j, oj, hj, hjlen, hoj, hhj, hc, hjE, hmin⟩
  · have hlt : c.distance < EPSILON := by
      rw [hc]
      show (-1 : K) < EPSILON
      linarith
    refine ⟨c, ?_, fun _ => by rw [hc], ?_⟩
    · simp only [findClosestHit, Int.toNat_ofNat, hloop, hlt, if_true]
    · rintro ⟨o, ho, h, hh, hE⟩
      obtain ⟨k, hk, hko⟩ := List.getElem_of_mem ho
      exact absurd hE (hnone k o h hk (by rw [List.getElem?_eq_getElem hk, hko]) hh)
  · have hcd : c.distance = hj.distance := by rw [hc]
    have hidx : c.intersectedObjectIndex = (j : Int) := by rw [hc]
    have hnlt : ¬ c.distance < EPSILON := by
      rw [hcd]
      exact not_lt.mpr hjE.le
    have hojne : oj ≠ Object.base := hobj oj (List.getElem?_mem hoj)
    obtain ⟨n, hn⟩ := Object.getNormalVector_ok sqrt oj
      (ray.starting_position + ray.direction_vector * c.distance) hojne
    refine ⟨{ c with
        intersectionPoint := ray.starting_position + ray.direction_vector * c.distance
        normalVector := n
        incomingVector := ray.direction_vector }, ?_, ?_, ?_⟩
    · simp only [findClosestHit, Int.toNat_ofNat, hloop, hnlt, if_false, hidx, hoj, hn]
    · intro hall
      exact absurd hjE (hall oj (List.getElem?_mem hoj) hj hhj)
    · intro _
      refine ⟨j, oj, hj, hoj, hhj, hjE, hcd, hidx, ?_, rfl, hn, rfl⟩
      intro k o1 h1 ho1 hh1 hE1
      have hk : k < objects.length := by
        by_contra hcon
        rw [List.getElem?_eq_none (not_lt.mp hcon)] at ho1
        exact Option.noConfusion ho1
      have := hmin k o1 h1 hk ho1 hh1 hE1
      exact ⟨by rw [show ({ c with
        intersectionPoint := ray.starting_position + ray.direction_vector * c.distance
        normalVector := n
        incomingVector := ray.direction_vector } : Hit K).distance = c.distance from rfl, hcd]; exact this.1,
        fun hkj => by
          rw [show ({ c with
            intersectionPoint := ray.starting_position + ray.direction_vector * c.distance
            normalVector := n
            incomingVector := ray.direction_vector } : Hit K).distance = c.distance from rfl, hcd]
          exact this.2 hkj⟩

/-- The scene `three_object_scene` seen along `down_ray`: the instance of the theorem, and
the hit it yields: distance 4 at index 1, the first of the two rectangles at distance 4. -/
theorem scene_query_returns_closest_witness :
    (∃ r, findClosestHit (1 / 1000000 : ℚ) (fun x => x) (blank_hit ℚ) (down_ray ℚ)
        three_object_scene three_object_scene.length = .ok r ∧
      ((∀ o ∈ three_object_scene, ∀ h,
          o.findClosestHit (1 / 1000000 : ℚ) (fun x => x) (blank_hit ℚ) (down_ray ℚ) = .ok h →
          ¬ (1 / 1000000 : ℚ) < h.distance) → r.distance = -1) ∧
      ((∃ o ∈ three_object_scene, ∃ h,
          o.findClosestHit (1 / 1000000 : ℚ) (fun x => x) (blank_hit ℚ) (down_ray ℚ) = .ok h ∧
          (1 / 1000000 : ℚ) < h.distance) →
        ∃ (j : Nat) (o : Object ℚ) (h : Hit ℚ), three_object_scene[j]? = some o ∧
          o.findClosestHit (1 / 1000000 : ℚ) (fun x => x) (blank_hit ℚ) (down_ray ℚ) = .ok h ∧
          (1 / 1000000 : ℚ) < h.distance ∧ r.distance = h.distance ∧
          r.intersectedObjectIndex = (j : Int) ∧
          (∀ (k : Nat) (o1 : Object ℚ) (h1 : Hit ℚ), three_object_scene[k]? = some o1 →
            o1.findClosestHit (1 / 1000000 : ℚ) (fun x => x) (blank_hit ℚ) (down_ray ℚ)
              = .ok h1 →
            (1 / 1000000 : ℚ) < h1.distance →
            r.distance ≤ h1.distance ∧ (k < j → r.distance < h1.distance)) ∧
          r.intersectionPoint =
            (down_ray ℚ).starting_position + (down_ray ℚ).direction_vector * r.distance ∧
          o.getNormalVector (fun x => x) r.intersectionPoint = .ok r.normalVector ∧
          r.incomingVector = (down_ray ℚ).direction_vector)) ∧
    findClosestHit (1 / 1000000 : ℚ) (fun x => x) (blank_hit ℚ) (down_ray ℚ)
      three_object_scene 3 = .ok ⟨4, ⟨0, 0, 1⟩, ⟨0, 0, 1⟩, ⟨0, 0, -1⟩, 1, 0⟩ := by
  refine ⟨scene_query_returns_closest (1 / 1000000 : ℚ) (fun x => x) (blank_hit ℚ) (down_ray ℚ)
    three_object_scene (by norm_num) (by simp [three_object_scene]), ?_⟩
  norm_num [findClosestHit, findClosestHit_loop, three_object_scene, Object.findClosestHit,
    Plane.findClosestHit, Rectangle.findClosestHit, Plane.computeDistanceInCenteredSystem,
    dotVectors, down_ray, blank_hit, vec3.sub_def, vec3.add_def, vec3.scale_def,
    Object.getNormalVector, Plane.getNormalVector]

/-- Claim C12: for a sphere with centre `c` and radius `r > 0` and a ray with unit-length
direction, `Sphere::findClosestHit` passes `b = 2*(dir.origin - dir.c)` and
`c0 = |c - origin|^2 - r^2` to the quadratic solver; for every `t` the point
`origin + t*dir` lies on the sphere iff `t^2 + b*t + c0 = 0`; the reported distance is the
least `t > 0` at which the ray meets the sphere, and it is the no-hit distance -1 when there
is no such `t`. The solver is the one modelled from the spec in `solveQuadratic`. -/
theorem sphere_reports_least_positive_root (c : vec3 ℝ) (r : ℝ) (ray : Ray ℝ) (uninit : Hit ℝ)
    (hr : 0 < r) (hunit : ray.direction_vector.length_squared = 1) :
    ((Sphere.construct c r).findClosestHit Real.sqrt ray uninit).distance =
      solveQuadratic Real.sqrt
        (2 * (dotVectors ray.direction_vector ray.starting_position -
          dotVectors ray.direction_vector c))
        ((c - ray.starting_position).length_squared - r * r) ∧
    (∀ t : ℝ,
      (ray.starting_position + ray.direction_vector * t - c).length_squared = r * r ↔
        t * t + (2 * (dotVectors ray.direction_vector ray.starting_position -
            dotVectors ray.direction_vector c)) * t +
          ((c - ray.starting_position).length_squared - r * r) = 0) ∧
    (∀ t : ℝ, 0 < t →
      (ray.starting_position + ray.direction_vector * t - c).length_squared = r * r →
      0 < ((Sphere.construct c r).findClosestHit Real.sqrt ray uninit).distance ∧
      (ray.starting_position + ray.direction_vector *
        ((Sphere.construct c r).findClosestHit Real.sqrt ray uninit).distance
          - c).length_squared = r * r ∧
      ((Sphere.construct c r).findClosestHit Real.sqrt ray uninit).distance ≤ t) ∧
    ((∀ t : ℝ, 0 < t →
        (ray.starting_position + ray.direction_vector * t - c).length_squared ≠ r * r) →
      ((Sphere.construct c r).findClosestHit Real.sqrt ray uninit).distance = -1) := by
  have _hr := hr
  have heq := fun t => sphere_equation c ray.starting_position ray.direction_vector r t hunit
  have hsolve := solveQuadratic_least_positive
    (2 * (dotVectors ray.direction_vector ray.starting_position -
      dotVectors ray.direction_vector c))
    ((c - ray.starting_position).length_squared - r * r)
  have hcode : ((Sphere.construct c r).findClosestHit Real.sqrt ray uninit).distance =
      solveQuadratic Real.sqrt
        (2 * (dotVectors ray.direction_vector ray.starting_position -
          dotVectors ray.direction_vector c))
        ((c - ray.starting_position).length_squared - r * r) := rfl
  refine ⟨hcode, heq, ?_, ?_⟩
  · intro t ht hmeet
    rw [hcode]
    obtain ⟨h1, h2, h3⟩ := hsolve.1 t ht ((heq t).mp hmeet)
    exact ⟨h1, (heq _).mpr h2, h3⟩
  · intro hno
    rw [hcode]
    exact hsolve.2 (fun t ht h => hno t ht ((heq t).mpr h))

/-- The ray from (0,0,5) towards (0,0,-1) against the unit sphere at the origin: distance 4,
point (0,0,1), normal (0,0,1). -/
theorem sphere_reports_least_positive_root_witness :
    ((Sphere.construct (⟨0, 0, 0⟩ : vec3 ℝ) 1).findClosestHit Real.sqrt
      ⟨⟨0, 0, 5⟩, ⟨0, 0, -1⟩⟩ ⟨0, ⟨0, 0, 0⟩, ⟨0, 0, 0⟩, ⟨0, 0, 0⟩, 0, 0⟩).distance = 4 ∧
    (⟨0, 0, 5⟩ : vec3 ℝ) + (⟨0, 0, -1⟩ : vec3 ℝ) * (4 : ℝ) = ⟨0, 0, 1⟩ ∧
    (Sphere.construct (⟨0, 0, 0⟩ : vec3 ℝ) 1).getNormalVector Real.sqrt ⟨0, 0, 1⟩ = ⟨0, 0, 1⟩ := by
  have h := sphere_reports_least_positive_root ⟨0, 0, 0⟩ 1 ⟨⟨0, 0, 5⟩, ⟨0, 0, -1⟩⟩
    ⟨0, ⟨0, 0, 0⟩, ⟨0, 0, 0⟩, ⟨0, 0, 0⟩, 0, 0⟩ (by norm_num)
    (by norm_num [vec3.length_squared])
  have h4 : ((⟨0, 0, 5⟩ : vec3 ℝ) + (⟨0, 0, -1⟩ : vec3 ℝ) * (4 : ℝ) -
      (⟨0, 0, 0⟩ : vec3 ℝ)).length_squared = 1 * 1 := by
    norm_num [vec3.length_squared, vec3.add_def, vec3.sub_def, vec3.scale_def]
  obtain ⟨hpos, hmeet, hle⟩ := h.2.2.1 4 (by norm_num) h4
  refine ⟨?_, ?_, ?_⟩
  · have hroot := (h.2.1 _).mp hmeet
    norm_num [dotVectors, vec3.length_squared, vec3.sub_def] at hroot
    have hfac : (((Sphere.construct (⟨0, 0, 0⟩ : vec3 ℝ) 1).findClosestHit Real.sqrt
        ⟨⟨0, 0, 5⟩, ⟨0, 0, -1⟩⟩ ⟨0, ⟨0, 0, 0⟩, ⟨0, 0, 0⟩, ⟨0, 0, 0⟩, 0, 0⟩).distance - 4) *
        (((Sphere.construct (⟨0, 0, 0⟩ : vec3 ℝ) 1).findClosestHit Real.sqrt
        ⟨⟨0, 0, 5⟩, ⟨0, 0, -1⟩⟩ ⟨0, ⟨0, 0, 0⟩, ⟨0, 0, 0⟩, ⟨0, 0, 0⟩, 0, 0⟩).distance - 6) = 0 := by
      linear_combination hroot
    rcases mul_eq_zero.mp hfac with h' | h'
    · linarith
    · linarith
  · norm_num [vec3.add_def, vec3.scale_def]
  · simp [Sphere.getNormalVector, Sphere.construct, vec3.sub_def, normalizeVector_unit_z]

/-- Claim C13, as stated, fails on the code: with `EPSILON` = 1/1000000, the rectangle
centred at the origin with axes (1,0,0), (0,1,0) and sides 2, 2, and the ray from
(0, 0, 1/2000000) in direction (1, 0, -1/2000000), the ray is not parallel to the plane, it
meets the plane at `t = 1` in the point (1,0,0), both in-plane coordinates are within the
half-extents plus `EPSILON`, and `Rectangle::findClosestHit` returns the no-hit distance -1
(the direction is within `EPSILON` of parallel). -/
theorem rectangle_near_parallel_ray_rejected :
    dotVectors (⟨1, 0, -(1 / 2000000)⟩ : vec3 ℝ)
      (Rectangle.construct Real.sqrt ⟨0, 0, 0⟩ ⟨1, 0, 0⟩ ⟨0, 1, 0⟩ 2 2).normalVector ≠ 0 ∧
    dotVectors ((⟨0, 0, 1 / 2000000⟩ : vec3 ℝ) + (⟨1, 0, -(1 / 2000000)⟩ : vec3 ℝ) * (1 : ℝ) -
        (Rectangle.construct Real.sqrt ⟨0, 0, 0⟩ ⟨1, 0, 0⟩ ⟨0, 1, 0⟩ 2 2).position)
      (Rectangle.construct Real.sqrt ⟨0, 0, 0⟩ ⟨1, 0, 0⟩ ⟨0, 1, 0⟩ 2 2).normalVector = 0 ∧
    (⟨0, 0, 1 / 2000000⟩ : vec3 ℝ) + (⟨1, 0, -(1 / 2000000)⟩ : vec3 ℝ) * (1 : ℝ) = ⟨1, 0, 0⟩ ∧
    |dotVectors ((⟨1, 0, 0⟩ : vec3 ℝ) -
        (Rectangle.construct Real.sqrt ⟨0, 0, 0⟩ ⟨1, 0, 0⟩ ⟨0, 1, 0⟩ 2 2).position)
      (Rectangle.construct Real.sqrt ⟨0, 0, 0⟩ ⟨1, 0, 0⟩ ⟨0, 1, 0⟩ 2 2).v1|
        ≤ (2 : ℝ) / 2 + 1 / 1000000 ∧
    |dotVectors ((⟨1, 0, 0⟩ : vec3 ℝ) -
        (Rectangle.construct Real.sqrt ⟨0, 0, 0⟩ ⟨1, 0, 0⟩ ⟨0, 1, 0⟩ 2 2).position)
      (Rectangle.construct Real.sqrt ⟨0, 0, 0⟩ ⟨1, 0, 0⟩ ⟨0, 1, 0⟩ 2 2).v2|
        ≤ (2 : ℝ) / 2 + 1 / 1000000 ∧
    ((Rectangle.construct Real.sqrt ⟨0, 0, 0⟩ ⟨1, 0, 0⟩ ⟨0, 1, 0⟩ 2 2).findClosestHit
      (1 / 1000000) ⟨⟨0, 0, 1 / 2000000⟩, ⟨1, 0, -(1 / 2000000)⟩⟩
      (blank_hit ℝ)).distance = -1 := by
  rw [unit_square_fields]
  refine ⟨?_, ?_, ?_, ?_, ?_, ?_⟩
  · norm_num [dotVectors]
  · norm_num [dotVectors, vec3.add_def, vec3.sub_def, vec3.scale_def]
  · norm_num [vec3.add_def, vec3.scale_def]
  · norm_num [dotVectors, vec3.sub_def]
  · norm_num [dotVectors, vec3.sub_def]
  · have h : |(2000000 : ℝ)⁻¹| < 1000000⁻¹ := by
      rw [abs_of_pos (by norm_num)]
      norm_num
    simp [Rectangle.findClosestHit, Plane.computeDistanceInCenteredSystem, dotVectors, h]

/-- Claim C13, amended: for every rectangle and every ray whose direction satisfies
`|direction . normal| >= EPSILON` (a ray closer to parallel than that is reported as no hit)
and that meets the plane at a distance `t >= 0`, `Rectangle::findClosestHit` returns distance
`t` if the plane point `P = origin + t*direction` satisfies both
`|(P - position).v1| <= L1/2 + EPSILON` and `|(P - position).v2| <= L2/2 + EPSILON`, and
returns the no-hit distance -1 if either in-plane coordinate exceeds its half-extent plus
`EPSILON`. -/
theorem rectangle_hit_iff_within_extents {K : Type} [LinearOrderedField K] (EPSILON : K)
    (self : Rectangle K) (ray : Ray K) (uninit : Hit K) (t : K) (hEPS : 0 < EPSILON)
    (hguard : EPSILON ≤ |dotVectors ray.direction_vector self.normalVector|)
    (hplane : dotVectors (ray.starting_position + ray.direction_vector * t - self.position)
      self.normalVector = 0)
    (ht : 0 ≤ t) :
    ((|dotVectors (ray.starting_position + ray.direction_vector * t - self.position) self.v1|
          ≤ self.L1 / 2 + EPSILON ∧
      |dotVectors (ray.starting_position + ray.direction_vector * t - self.position) self.v2|
          ≤ self.L2 / 2 + EPSILON) →
      (self.findClosestHit EPSILON ray uninit).distance = t) ∧
    ((self.L1 / 2 + EPSILON <
        |dotVectors (ray.starting_position + ray.direction_vector * t - self.position) self.v1| ∨
      self.L2 / 2 + EPSILON <
        |dotVectors (ray.starting_position + ray.direction_vector * t - self.position) self.v2|) →
      (self.findClosestHit EPSILON ray uninit).distance = -1) := by
  have hdn : dotVectors ray.direction_vector self.normalVector ≠ 0 := by
    intro h0
    rw [h0, abs_zero] at hguard
    exact absurd hguard (not_le.mpr hEPS)
  have hdist : self.toPlane.computeDistanceInCenteredSystem EPSILON
      (ray.starting_position - self.position) ray.direction_vector = t := by
    rw [dotVectors_ray_point] at hplane
    simp only [Plane.computeDistanceInCenteredSystem, abs_neg, not_lt.mpr hguard, if_false]
    rw [div_eq_iff (neg_ne_zero.mpr hdn)]
    linear_combination hplane
  rw [dotVectors_ray_point, dotVectors_ray_point]
  constructor
  · rintro ⟨h1, h2⟩
    simp only [Rectangle.findClosestHit, hdist, not_lt.mpr ht, if_false, gt_iff_lt]
    rw [if_neg (by rw [not_or]; exact ⟨not_lt.mpr h1, not_lt.mpr h2⟩)]
  · intro h
    simp only [Rectangle.findClosestHit, hdist, not_lt.mpr ht, if_false, gt_iff_lt]
    rw [if_pos h]

/-- The rectangle centred at the origin with sides 2, 2 and the ray from (1/2, 0, 5) towards
(0,0,-1): the plane point (1/2, 0, 0) is within the extents and the distance is 5. -/
theorem rectangle_hit_iff_within_extents_witness :
    (Rectangle.findClosestHit (1 / 1000000 : ℚ)
      ⟨⟨⟨0, 0, 0⟩, ⟨1, 0, 0⟩, ⟨0, 1, 0⟩, ⟨0, 0, 1⟩⟩, 2, 2⟩
      ⟨⟨1 / 2, 0, 5⟩, ⟨0, 0, -1⟩⟩ ⟨0, ⟨0, 0, 0⟩, ⟨0, 0, 0⟩, ⟨0, 0, 0⟩, 0, 0⟩).distance = 5 :=
  (rectangle_hit_iff_within_extents (1 / 1000000 : ℚ)
    ⟨⟨⟨0, 0, 0⟩, ⟨1, 0, 0⟩, ⟨0, 1, 0⟩, ⟨0, 0, 1⟩⟩, 2, 2⟩
    ⟨⟨1 / 2, 0, 5⟩, ⟨0, 0, -1⟩⟩ ⟨0, ⟨0, 0, 0⟩, ⟨0, 0, 0⟩, ⟨0, 0, 0⟩, 0, 0⟩ 5 (by norm_num)
    (by norm_num [dotVectors, abs_of_pos])
    (by norm_num [dotVectors, vec3.add_def, vec3.sub_def, vec3.scale_def])
    (by norm_num)).1
    (by norm_num [dotVectors, vec3.add_def, vec3.sub_def, vec3.scale_def, abs_le])

/-- Claim C14: for a triangle with non-collinear vertices and every ray, if
`Triangle::findClosestHit` returns a distance `t` other than -1 then `t >= 0` and the point
`origin + t*direction` equals `a*p1 + b*p2 + c*p3` for some `a, b, c >= 0` with
`a + b + c = 1`; and if the ray meets the plane of the triangle at some `t >= 0` in a point
that is not in the triangle, the result is the no-hit distance -1. -/
theorem triangle_hit_lies_in_triangle (EPSILON : ℝ) (p1 p2 p3 : vec3 ℝ) (ray : Ray ℝ)
    (uninit : Hit ℝ) (hEPS : 0 < EPSILON)
    (hnd : crossVectors (p2 - p1) (p3 - p1) ≠ ⟨0, 0, 0⟩) :
    (((Triangle.construct Real.sqrt p1 p2 p3).findClosestHit EPSILON ray uninit).distance ≠ -1 →
      0 ≤ ((Triangle.construct Real.sqrt p1 p2 p3).findClosestHit EPSILON ray uninit).distance ∧
      in_triangle p1 p2 p3 (ray.starting_position + ray.direction_vector *
        ((Triangle.construct Real.sqrt p1 p2 p3).findClosestHit EPSILON ray uninit).distance)) ∧
    (∀ t : ℝ, 0 ≤ t →
      dotVectors (ray.starting_position + ray.direction_vector * t - p1)
        (crossVectors (p2 - p1) (p3 - p1)) = 0 →
      ¬ in_triangle p1 p2 p3 (ray.starting_position + ray.direction_vector * t) →
      ((Triangle.construct Real.sqrt p1 p2 p3).findClosestHit EPSILON ray uninit).distance
        = -1) := by
  rcases triangle_hit_cases EPSILON p1 p2 p3 ray uninit hEPS hnd with
    hmiss | ⟨hd0, hdn, hplane, hin⟩
  · exact ⟨fun h => absurd hmiss h, fun _ _ _ _ => hmiss⟩
  · refine ⟨fun _ => ⟨hd0, hin⟩, ?_⟩
    intro t _ htplane hout
    exfalso
    apply hout
    obtain ⟨-, -, -, -, κ, hκ, hq⟩ := triangle_frame p1 p2 p3 hnd
    have htn : dotVectors (ray.starting_position + ray.direction_vector * t - p1)
        (Triangle.construct Real.sqrt p1 p2 p3).normalVector = 0 := by
      rw [hq, htplane, zero_div]
    rw [dotVectors_ray_point] at htn hplane
    have hteq : t =
        ((Triangle.construct Real.sqrt p1 p2 p3).findClosestHit EPSILON ray uninit).distance := by
      have : dotVectors ray.direction_vector
          (Triangle.construct Real.sqrt p1 p2 p3).normalVector *
          (t - ((Triangle.construct Real.sqrt p1 p2 p3).findClosestHit EPSILON ray
            uninit).distance) = 0 := by
        linear_combination htn - hplane
      rcases mul_eq_zero.mp this with h | h
      · exact absurd h hdn
      · linarith
    rw [hteq]
    exact hin

/-- The triangle (0,0,0), (1,0,0), (0,1,0) and the ray from (1/4, 1/4, 1) towards (0,0,-1):
the instance of the theorem, and the distance 1 that the code returns. -/
theorem triangle_hit_lies_in_triangle_witness :
    ((((Triangle.construct Real.sqrt ⟨0, 0, 0⟩ ⟨1, 0, 0⟩ ⟨0, 1, 0⟩).findClosestHit
          (1 / 1000000) ⟨⟨1 / 4, 1 / 4, 1⟩, ⟨0, 0, -1⟩⟩ (blank_hit ℝ)).distance ≠ -1 →
        0 ≤ ((Triangle.construct Real.sqrt ⟨0, 0, 0⟩ ⟨1, 0, 0⟩ ⟨0, 1, 0⟩).findClosestHit
          (1 / 1000000) ⟨⟨1 / 4, 1 / 4, 1⟩, ⟨0, 0, -1⟩⟩ (blank_hit ℝ)).distance ∧
        in_triangle ⟨0, 0, 0⟩ ⟨1, 0, 0⟩ ⟨0, 1, 0⟩
          ((⟨1 / 4, 1 / 4, 1⟩ : vec3 ℝ) + (⟨0, 0, -1⟩ : vec3 ℝ) *
            ((Triangle.construct Real.sqrt ⟨0, 0, 0⟩ ⟨1, 0, 0⟩ ⟨0, 1, 0⟩).findClosestHit
              (1 / 1000000) ⟨⟨1 / 4, 1 / 4, 1⟩, ⟨0, 0, -1⟩⟩ (blank_hit ℝ)).distance)) ∧
      (∀ t : ℝ, 0 ≤ t →
        dotVectors ((⟨1 / 4, 1 / 4, 1⟩ : vec3 ℝ) + (⟨0, 0, -1⟩ : vec3 ℝ) * t - ⟨0, 0, 0⟩)
          (crossVectors ((⟨1, 0, 0⟩ : vec3 ℝ) - ⟨0, 0, 0⟩) ((⟨0, 1, 0⟩ : vec3 ℝ) - ⟨0, 0, 0⟩))
            = 0 →
        ¬ in_triangle ⟨0, 0, 0⟩ ⟨1, 0, 0⟩ ⟨0, 1, 0⟩
          ((⟨1 / 4, 1 / 4, 1⟩ : vec3 ℝ) + (⟨0, 0, -1⟩ : vec3 ℝ) * t) →
        ((Triangle.construct Real.sqrt ⟨0, 0, 0⟩ ⟨1, 0, 0⟩ ⟨0, 1, 0⟩).findClosestHit
          (1 / 1000000) ⟨⟨1 / 4, 1 / 4, 1⟩, ⟨0, 0, -1⟩⟩ (blank_hit ℝ)).distance = -1)) ∧
    ((Triangle.construct Real.sqrt ⟨0, 0, 0⟩ ⟨1, 0, 0⟩ ⟨0, 1, 0⟩).findClosestHit
      (1 / 1000000) ⟨⟨1 / 4, 1 / 4, 1⟩, ⟨0, 0, -1⟩⟩ (blank_hit ℝ)).distance = 1 := by
  refine ⟨triangle_hit_lies_in_triangle (1 / 1000000) ⟨0, 0, 0⟩ ⟨1, 0, 0⟩ ⟨0, 1, 0⟩
    ⟨⟨1 / 4, 1 / 4, 1⟩, ⟨0, 0, -1⟩⟩ (blank_hit ℝ) (by norm_num)
    (by simp [crossVectors, vec3.sub_def]), ?_⟩
  rw [unit_triangle_fields]
  norm_num [Triangle.findClosestHit, dotVectors, vec3.sub_def, vec3.add_def, vec3.scale_def,
    Triangle.computeBarycentric, vec3.get, blank_hit]

/-- Claim C15: for an object whose normal at the surface point `s` is `n`, and a reference
point `p`, `Object::areaToAnglePDFFactor(s, p)` is `max(0, (n.(p - s)/|p - s|) / |p - s|^2)`;
it is never negative, and it is 0 whenever `n.(p - s) <= 0`. (Neither that `n` has unit length
nor that `p` differs from `s` is needed.) -/
theorem areaToAnglePDFFactor_clamped (self : Object ℝ) (s p n : vec3 ℝ)
    (hn : self.getNormalVector Real.sqrt s = .ok n) :
    self.areaToAnglePDFFactor Real.sqrt s p =
      .ok (max 0 (dotVectors n (p - s) / (p - s).length Real.sqrt / (p - s).length_squared)) ∧
    0 ≤ max 0 (dotVectors n (p - s) / (p - s).length Real.sqrt / (p - s).length_squared) ∧
    (dotVectors n (p - s) ≤ 0 →
      self.areaToAnglePDFFactor Real.sqrt s p = .ok 0) := by
  have hcode : self.areaToAnglePDFFactor Real.sqrt s p =
      .ok (max 0 (dotVectors n (p - s) / (p - s).length Real.sqrt / (p - s).length_squared)) := by
    simp only [Object.areaToAnglePDFFactor, hn, normalizeVector, dotVectors_div]
  refine ⟨hcode, le_max_left _ _, ?_⟩
  intro hle
  rw [hcode]
  have h1 : 0 ≤ (p - s).length Real.sqrt := Real.sqrt_nonneg _
  have h2 : 0 ≤ (p - s).length_squared := by
    simp only [vec3.length_squared]
    nlinarith [mul_self_nonneg (p - s).x, mul_self_nonneg (p - s).y, mul_self_nonneg (p - s).z]
  have h3 : dotVectors n (p - s) / (p - s).length Real.sqrt / (p - s).length_squared ≤ 0 :=
    div_nonpos_of_nonpos_of_nonneg (div_nonpos_of_nonpos_of_nonneg hle h1) h2
  rw [max_eq_left h3]

/-- The plane `z = 0` with normal (0,0,1), surface point (0,0,0), reference point (0,0,2):
the factor is `max 0 (2 / sqrt 4 / 4)`. -/
theorem areaToAnglePDFFactor_clamped_witness :
    (Object.plane ⟨⟨0, 0, 0⟩, ⟨1, 0, 0⟩, ⟨0, 1, 0⟩, ⟨0, 0, 1⟩⟩ : Object ℝ).areaToAnglePDFFactor
        Real.sqrt ⟨0, 0, 0⟩ ⟨0, 0, 2⟩ =
      .ok (max 0 (dotVectors (⟨0, 0, 1⟩ : vec3 ℝ) ((⟨0, 0, 2⟩ : vec3 ℝ) - ⟨0, 0, 0⟩) /
        ((⟨0, 0, 2⟩ : vec3 ℝ) - ⟨0, 0, 0⟩).length Real.sqrt /
        ((⟨0, 0, 2⟩ : vec3 ℝ) - ⟨0, 0, 0⟩).length_squared)) :=
  (areaToAnglePDFFactor_clamped (.plane ⟨⟨0, 0, 0⟩, ⟨1, 0, 0⟩, ⟨0, 1, 0⟩, ⟨0, 0, 1⟩⟩)
    ⟨0, 0, 0⟩ ⟨0, 0, 2⟩ ⟨0, 0, 1⟩ rfl).1

/-- Claim C16: for a triangle with non-collinear vertices and weights with `a + b + c = 1`,
`Triangle::computeBarycentric(a*p1 + b*p2 + c*p3) = (a, b, c)`; the vertices map to (1,0,0),
(0,1,0), (0,0,1); `Triangle::getUV` returns the blend of the corner UVs (0,0), (1,0), (0,1) by
the weights, and those corner UVs at `p1`, `p2`, `p3`. -/
theorem barycentric_of_vertex_blend (p1 p2 p3 : vec3 ℝ)
    (hnd : crossVectors (p2 - p1) (p3 - p1) ≠ ⟨0, 0, 0⟩) (a b c : ℝ) (habc : a + b + c = 1) :
    (Triangle.construct Real.sqrt p1 p2 p3).computeBarycentric (p1 * a + p2 * b + p3 * c)
      = ⟨a, b, c⟩ ∧
    (Triangle.construct Real.sqrt p1 p2 p3).computeBarycentric p1 = ⟨1, 0, 0⟩ ∧
    (Triangle.construct Real.sqrt p1 p2 p3).computeBarycentric p2 = ⟨0, 1, 0⟩ ∧
    (Triangle.construct Real.sqrt p1 p2 p3).computeBarycentric p3 = ⟨0, 0, 1⟩ ∧
    (Triangle.construct Real.sqrt p1 p2 p3).getUV (p1 * a + p2 * b + p3 * c) =
      (⟨0, 0, 0⟩ : vec3 ℝ) * a + (⟨1, 0, 0⟩ : vec3 ℝ) * b + (⟨0, 1, 0⟩ : vec3 ℝ) * c ∧
    (Triangle.construct Real.sqrt p1 p2 p3).getUV p1 = ⟨0, 0, 0⟩ ∧
    (Triangle.construct Real.sqrt p1 p2 p3).getUV p2 = ⟨1, 0, 0⟩ ∧
    (Triangle.construct Real.sqrt p1 p2 p3).getUV p3 = ⟨0, 1, 0⟩ := by
  have hdet : (Triangle.construct Real.sqrt p1 p2 p3).detT ≠ 0 :=
    (triangle_detT_pos p1 p2 p3 hnd).ne'
  have hbary : ∀ a b c : ℝ, a + b + c = 1 →
      (Triangle.construct Real.sqrt p1 p2 p3).computeBarycentric (p1 * a + p2 * b + p3 * c)
        = ⟨a, b, c⟩ := fun a b c h =>
    barycentric_of_combination (Triangle.construct Real.sqrt p1 p2 p3) a b c h hdet
      rfl rfl rfl rfl rfl rfl rfl
  have e1 : p1 * (1 : ℝ) + p2 * (0 : ℝ) + p3 * (0 : ℝ) = p1 := by
    simp [vec3.add_def, vec3.scale_def]
  have e2 : p1 * (0 : ℝ) + p2 * (1 : ℝ) + p3 * (0 : ℝ) = p2 := by
    simp [vec3.add_def, vec3.scale_def]
  have e3 : p1 * (0 : ℝ) + p2 * (0 : ℝ) + p3 * (1 : ℝ) = p3 := by
    simp [vec3.add_def, vec3.scale_def]
  have b1 := hbary 1 0 0 (by norm_num)
  have b2 := hbary 0 1 0 (by norm_num)
  have b3 := hbary 0 0 1 (by norm_num)
  rw [e1] at b1
  rw [e2] at b2
  rw [e3] at b3
  have huv : ∀ q : vec3 ℝ, (Triangle.construct Real.sqrt p1 p2 p3).getUV q =
      (⟨0, 0, 0⟩ : vec3 ℝ) * ((Triangle.construct Real.sqrt p1 p2 p3).computeBarycentric q).x +
      (⟨1, 0, 0⟩ : vec3 ℝ) * ((Triangle.construct Real.sqrt p1 p2 p3).computeBarycentric q).y +
      (⟨0, 1, 0⟩ : vec3 ℝ) * ((Triangle.construct Real.sqrt p1 p2 p3).computeBarycentric q).z :=
    fun _ => rfl
  refine ⟨hbary a b c habc, b1, b2, b3, ?_, ?_, ?_, ?_⟩
  · rw [huv, hbary a b c habc]
  · rw [huv, b1]; simp [vec3.add_def, vec3.scale_def]
  · rw [huv, b2]; simp [vec3.add_def, vec3.scale_def]
  · rw [huv, b3]; simp [vec3.add_def, vec3.scale_def]

/-- The triangle (0,0,0), (1,0,0), (0,1,0) with weights 1/2, 1/4, 1/4. -/
theorem barycentric_of_vertex_blend_witness :
    (Triangle.construct Real.sqrt ⟨0, 0, 0⟩ ⟨1, 0, 0⟩ ⟨0, 1, 0⟩).computeBarycentric
      ((⟨0, 0, 0⟩ : vec3 ℝ) * (1 / 2 : ℝ) + (⟨1, 0, 0⟩ : vec3 ℝ) * (1 / 4 : ℝ) +
        (⟨0, 1, 0⟩ : vec3 ℝ) * (1 / 4 : ℝ)) = ⟨1 / 2, 1 / 4, 1 / 4⟩ :=
  (barycentric_of_vertex_blend ⟨0, 0, 0⟩ ⟨1, 0, 0⟩ ⟨0, 1, 0⟩
    (by simp [crossVectors, vec3.sub_def]) (1 / 2) (1 / 4) (1 / 4) (by norm_num)).1

/-- Claim C17: on an empty stack of capacity at least 2, entering medium `A` as identity 1,
entering a different medium `B` as identity 2 and exiting identity 1 all return normally;
afterwards the occupancy count is 1, `B` is still stored in slot 1 and carries identity 2,
slot 0 is cleared, and `get_medium()` returns the cleared slot (`nullptr`), not `B`. -/
theorem exit_below_top_leaves_cleared_top (MAX_STACK_SIZE : Nat)
    (medium_array : List (Option Ptr)) (ids : IdStore) (A B : Ptr)
    (hlen : medium_array.length = MAX_STACK_SIZE) (hcap : 2 ≤ MAX_STACK_SIZE)
    (hAB : A ≠ B) :
    ∃ s1 ids1,
      run MAX_STACK_SIZE (MediumStack.empty medium_array) ids
        [.enter A 1, .enter B 2, .exit 1] = (.ok, s1, ids1) ∧
      s1.stack_size = 1 ∧ s1.medium_array[1]? = some (some B) ∧ ids1 B = 2 ∧
      s1.medium_array[0]? = some none ∧ get_medium s1 = .ok none := by
  have hn : nested MAX_STACK_SIZE [] [.enter A 1, .enter B 2] = true := by
    simp [nested, hAB.symm]
    omega
  obtain ⟨s2, ids2, hrun, hrep⟩ := nested_run MAX_STACK_SIZE [.enter A 1, .enter B 2] []
    (MediumStack.empty medium_array) ids (represents_empty medium_array ids) hlen hn
  have hsz : s2.stack_size = 2 := hrep.1
  obtain ⟨e0, he0, hs0, hid0, -⟩ := represents_slot hrep 0 (by omega)
  obtain ⟨e1, he1, hs1, hid1, -⟩ := represents_slot hrep 1 (by omega)
  have h0 : e0 = (A, 1) := by
    simp [resident_after] at he0
    exact he0.symm
  have h1 : e1 = (B, 2) := by
    simp [resident_after] at he1
    exact he1.symm
  subst h0 h1
  have hscan : pop_scan s2.medium_array ids2 1 s2.stack_size = .found 0 := by
    have hB : ids2 B ≠ 1 := by
      have : ids2 B = 2 := hid1
      omega
    have hA : ids2 A = 1 := hid0
    rw [hsz]
    simp [pop_scan, hs1, hs0, hB, hA]
  have hfull := run_append MAX_STACK_SIZE [.enter A 1, .enter B 2] [.exit 1] _ _ _ _ hrun
  have hlen2 : 2 ≤ s2.medium_array.length := by
    have := hrep.2.1
    omega
  refine ⟨{ medium_array := s2.medium_array.set 0 none, stack_size := s2.stack_size - 1 }, ids2,
    ?_, by simp [hsz], ?_, hid1, ?_, ?_⟩
  · simpa [run, step, pop_medium, hscan] using hfull
  · simpa [List.getElem?_set] using hs1
  · have : 0 < s2.medium_array.length := by omega
    simp [List.getElem?_set, this]
  · have : 0 < s2.medium_array.length := by omega
    simp [get_medium, hsz, List.getElem?_set, this]

/-- Capacity 2, media at addresses 10 and 11. -/
theorem exit_below_top_leaves_cleared_top_witness :
    ∃ s1 ids1,
      run 2 (MediumStack.empty [some 77, none]) (fun _ => 0)
        [.enter 10 1, .enter 11 2, .exit 1] = (.ok, s1, ids1) ∧
      s1.stack_size = 1 ∧ s1.medium_array[1]? = some (some 11) ∧ ids1 11 = 2 ∧
      s1.medium_array[0]? = some none ∧ get_medium s1 = .ok none :=
  exit_below_top_leaves_cleared_top 2 [some 77, none] (fun _ => 0) 10 11 rfl (by decide)
    (by decide)

/-- Claim C18: for a pure-absorption medium with absorption `a` and an incoming ray with
unit-length direction for which the scene query reports a hit at distance `t > 0` whose
intersection point is origin + direction * t, the length of (intersection point - origin)
that `BeersLawMedium::Integrate` uses equals `t`, and the transmittance it sets is
`exp(-a[c] * t)` in channel `c`. -/
theorem beers_law_integrate_transmittance {Obj : Type} (s a : vec3 ℝ)
    (find_closest_hit : Ray ℝ → List Obj → Int → Option (Hit ℝ))
    (objects : List Obj) (number_of_objects : Int) (args : IntegrateArgs ℝ) (hit : Hit ℝ)
    (hunit : args.incoming_ray.direction_vector.length_squared = 1)
    (hhit : find_closest_hit args.incoming_ray objects number_of_objects = some hit)
    (ht : 0 < hit.distance)
    (hpoint : hit.intersectionPoint =
      args.incoming_ray.starting_position + args.incoming_ray.direction_vector * hit.distance) :
    (hit.intersectionPoint - args.incoming_ray.starting_position).length Real.sqrt
      = hit.distance ∧
    (BeersLawMedium.Integrate Real.exp Real.sqrt find_closest_hit
        (BeersLawMedium.construct s a) objects number_of_objects args).transmittance =
      ⟨Real.exp (-a.x * hit.distance), Real.exp (-a.y * hit.distance),
        Real.exp (-a.z * hit.distance)⟩ := by
  have hlen : (hit.intersectionPoint - args.incoming_ray.starting_position).length Real.sqrt
      = hit.distance := by
    rw [hpoint]
    simp only [vec3.length, vec3.length_squared, vec3.add_def, vec3.sub_def, vec3.scale_def]
      at hunit ⊢
    have : (args.incoming_ray.starting_position.x +
          args.incoming_ray.direction_vector.x * hit.distance -
          args.incoming_ray.starting_position.x) *
        (args.incoming_ray.starting_position.x +
          args.incoming_ray.direction_vector.x * hit.distance -
          args.incoming_ray.starting_position.x) +
        (args.incoming_ray.starting_position.y +
          args.incoming_ray.direction_vector.y * hit.distance -
          args.incoming_ray.starting_position.y) *
        (args.incoming_ray.starting_position.y +
          args.incoming_ray.direction_vector.y * hit.distance -
          args.incoming_ray.starting_position.y) +
        (args.incoming_ray.starting_position.z +
          args.incoming_ray.direction_vector.z * hit.distance -
          args.incoming_ray.starting_position.z) *
        (args.incoming_ray.starting_position.z +
          args.incoming_ray.direction_vector.z * hit.distance -
          args.incoming_ray.starting_position.z) = hit.distance ^ 2 := by
      linear_combination (hit.distance ^ 2) * hunit
    rw [this]
    exact Real.sqrt_sq ht.le
  refine ⟨hlen, ?_⟩
  simp only [BeersLawMedium.Integrate, hhit, hlen, transmittance_albedo_eq,
    BeersLawMedium.construct, Medium.construct, vec3.broadcast, vec3.add_def, add_zero]

/-- Absorption (1, 2, 3), the ray from (0,0,5) towards (0,0,-1) and a hit at distance 4 in
the point (0,0,1). -/
theorem beers_law_integrate_transmittance_witness :
    (BeersLawMedium.Integrate Real.exp Real.sqrt
        (fun _ (_ : List Unit) _ => some ⟨4, ⟨0, 0, 1⟩, ⟨0, 0, 1⟩, ⟨0, 0, -1⟩, 0, 0⟩)
        (BeersLawMedium.construct ⟨7, 7, 7⟩ ⟨1, 2, 3⟩) [()] 1
        ⟨⟨⟨0, 0, 5⟩, ⟨0, 0, -1⟩⟩, ⟨0, 0, 0⟩, ⟨9, 9, 9⟩, ⟨5, 6, 7⟩,
          ⟨⟨1, 2, 3⟩, ⟨1, 0, 0⟩⟩⟩).transmittance =
      ⟨Real.exp (-1 * 4), Real.exp (-2 * 4), Real.exp (-3 * 4)⟩ :=
  (beers_law_integrate_transmittance ⟨7, 7, 7⟩ ⟨1, 2, 3⟩
    (fun _ (_ : List Unit) _ => some ⟨4, ⟨0, 0, 1⟩, ⟨0, 0, 1⟩, ⟨0, 0, -1⟩, 0, 0⟩) [()] 1
    ⟨⟨⟨0, 0, 5⟩, ⟨0, 0, -1⟩⟩, ⟨0, 0, 0⟩, ⟨9, 9, 9⟩, ⟨5, 6, 7⟩, ⟨⟨1, 2, 3⟩, ⟨1, 0, 0⟩⟩⟩
    ⟨4, ⟨0, 0, 1⟩, ⟨0, 0, 1⟩, ⟨0, 0, -1⟩, 0, 0⟩
    (by norm_num [vec3.length_squared]) rfl (by norm_num)
    (by norm_num [vec3.add_def, vec3.scale_def])).2

/-- Claim C19: on a stack of occupancy `n` below the capacity whose occupied slots all hold
a medium, for a medium `m` held by none of them and an identity `id` carried by none of them,
`add_medium(m, id)` followed by `pop_medium(id)` returns normally both times and leaves the
occupancy count `n`, slots `0 .. n-1` and the identities of the media in them as they were;
`m` carries `id` and no other medium has changed identity. Slot `n`, above the restored count,
is left cleared. -/
theorem enter_exit_round_trip (MAX_STACK_SIZE : Nat) (s : MediumStack) (ids : IdStore)
    (m : Ptr) (id : Int) (hlen : s.medium_array.length = MAX_STACK_SIZE)
    (hcap : s.stack_size < MAX_STACK_SIZE) (hne : occupied_nonempty s)
    (hm : ∀ i, i < s.stack_size → s.medium_array[i]? ≠ some (some m))
    (habs : id_absent s ids id) :
    run MAX_STACK_SIZE s ids [.enter m id, .exit id] =
      (.ok, { medium_array := s.medium_array.set s.stack_size none,
              stack_size := s.stack_size }, Function.update ids m id) ∧
    (∀ i, i < s.stack_size →
      (s.medium_array.set s.stack_size none)[i]? = s.medium_array[i]?) ∧
    (∀ i p, i < s.stack_size → s.medium_array[i]? = some (some p) →
      Function.update ids m id p = ids p) ∧
    Function.update ids m id m = id ∧
    (∀ q, q ≠ m → Function.update ids m id q = ids q) := by
  have hlt : s.stack_size < s.medium_array.length := by omega
  have hadd := add_medium_of_absent MAX_STACK_SIZE s ids m id hlen hcap hne habs
  have hscan : pop_scan (s.medium_array.set s.stack_size (some m)) (Function.update ids m id) id
      (s.stack_size + 1) = .found s.stack_size :=
    pop_scan_top _ _ id s.stack_size m (by simp [List.getElem?_set, hlt]) (by simp)
  refine ⟨?_, ?_, ?_, by simp, ?_⟩
  · simp [run, step, hadd, pop_medium, hscan]
  · intro i hi
    simp [List.getElem?_set, Nat.ne_of_gt hi]
  · intro i p hi hp
    have hpm : p ≠ m := by
      rintro rfl
      exact hm i hi hp
    simp [Function.update, hpm]
  · intro q hq
    simp [Function.update, hq]

/-- Capacity 4, identities 1, 2, 3 entered; the medium at address 13 is entered as identity 4
and exited again. -/
theorem enter_exit_round_trip_witness :
    run 4 (three_entered 4).2.1 (three_entered 4).2.2 [.enter 13 4, .exit 4] =
      (.ok, { medium_array := (three_entered 4).2.1.medium_array.set
                (three_entered 4).2.1.stack_size none,
              stack_size := (three_entered 4).2.1.stack_size },
        Function.update (three_entered 4).2.2 13 4) :=
  (enter_exit_round_trip 4 (three_entered 4).2.1 (three_entered 4).2.2 13 4 (by decide)
    (by decide) three_entered_occupied
    (by
      intro i hi
      have hi3 : i < 3 := hi
      interval_cases i <;> decide)
    (three_entered_absent 4 (by decide))).1

/-- Claim C20: for every homogeneous scattering medium and every distance `d`, the three
channels of `sample(d, scatter=false)` sum to 3, and all of them equal 1 exactly when the
three channel transmittances at `d` are equal. -/
theorem sample_no_scatter_channels_sum (self : Medium ℝ) (d : ℝ) :
    (ScatteringMediumHomogenous.sample Real.exp self d false).x +
      (ScatteringMediumHomogenous.sample Real.exp self d false).y +
      (ScatteringMediumHomogenous.sample Real.exp self d false).z = 3 ∧
    ((∀ c : Fin 3, (ScatteringMediumHomogenous.sample Real.exp self d false).get c = 1) ↔
      ((self.transmittance_albedo Real.exp d).x = (self.transmittance_albedo Real.exp d).y ∧
       (self.transmittance_albedo Real.exp d).y = (self.transmittance_albedo Real.exp d).z)) := by
  simp only [ScatteringMediumHomogenous.sample, pdf_loop_eq, transmittance_albedo_eq]
  simp only [Bool.false_eq_true, if_false, vec3.div_def]
  have hx := Real.exp_pos (-self.extinction_albedo.x * d)
  have hy := Real.exp_pos (-self.extinction_albedo.y * d)
  have hz := Real.exp_pos (-self.extinction_albedo.z * d)
  generalize Real.exp (-self.extinction_albedo.x * d) = tx at *
  generalize Real.exp (-self.extinction_albedo.y * d) = ty at *
  generalize Real.exp (-self.extinction_albedo.z * d) = tz at *
  have hs : tx + ty + tz ≠ 0 := by positivity
  constructor
  · field_simp
    ring
  · constructor
    · intro h
      have h0 := h 0
      have h1 := h 1
      have h2 := h 2
      simp only [vec3.get] at h0 h1 h2
      field_simp at h0 h1 h2
      constructor <;> linarith
    · rintro ⟨hxy, hyz⟩ c
      subst hxy hyz
      fin_cases c <;> simp only [vec3.get] <;> field_simp <;> ring

end Raytracing
